import Mathlib

/-!
Verification development for the `juit-vue-ts-checker` repository.

The repository bridges the TypeScript language service and Vue single-file
components ("documents"): a virtual path scheme (`src/lib/pseudo.ts`), a
timestamp-keyed incremental cache (`src/lib/cache.ts`), a document
transpiler (`src/core/transpile.ts`), the overlay language-service host
(`src/core/compiler.ts`), and a report aggregator (`src/core/reports.ts`).

Shallow embedding conventions used throughout this file:
* paths and other JavaScript strings are modeled by their character lists
  (`Str := List Char`), so that `String.prototype.endsWith`, `substr` and
  concatenation become `List` operations with a well-developed lemma base;
* the filesystem (`src/lib/files.ts`: `fileLastModified`, `directoryExists`,
  `fileRead`) is a record of pure functions; `resolve` is modeled as the
  identity (paths are taken to be already resolved);
* external collaborators (the Vue SFC parser/template compiler, the Babel
  parser/printer and the sha-256 hash) are pure black-box functions packaged
  in an environment record, exactly as the spec classifies them
  ("consumed as a black box");
* fallible code (`assert(...)` in `transpile`) returns `Except`;
* JavaScript `Record` objects used as maps become association lists with
  replace-on-set semantics, so that entry counts and purges are observable.
-/

set_option maxHeartbeats 1000000

/-- JavaScript strings (and file paths) modeled as lists of characters. -/
abbrev Str := List Char

/-- `s.endsWith sfx` of JavaScript, i.e. `sfx` is a suffix of `s`. -/
def pEndsWith (s sfx : Str) : Bool := decide (sfx <:+ s)

/-- `s.substr(0, s.length - n)` of JavaScript: drop the last `n` characters. -/
def pDropRight (s : Str) (n : Nat) : Str := s.take (s.length - n)

/- ========================================================================== *
 * FILESYSTEM MODEL (src/lib/files.ts)                                        *
 * ========================================================================== -/

/-- The on-disk state seen through `src/lib/files.ts`: `fileLastModified`
(`none` when the file is absent), `directoryExists`, and `fileRead`
(`none` when unreadable). -/
structure FS where
  mtime : Str → Option Nat
  dirExists : Str → Bool
  fileContents : Str → Option Str

/- ========================================================================== *
 * VIRTUAL PATH SCHEME (src/lib/pseudo.ts)                                    *
 * ========================================================================== -/

/-- `PseudoPathType` of `src/lib/pseudo.ts`: `'vue' | 'index' | 'render' | 'script'`. -/
inductive PseudoPathType where
  | vue
  | index
  | render
  | script
deriving DecidableEq, Repr

/-- The `PseudoPath` union of `src/lib/pseudo.ts`: either `FilePath*`
(an ordinary file: `path` and optional `timestamp`) or `VuePath*`
(a document or document-derived unit: `path`, `type`, the four derived
paths and the optional timestamp of the owning `.vue` file). -/
inductive PseudoPath where
  | file (path : Str) (timestamp : Option Nat)
  | vuePath (path : Str) (ty : PseudoPathType)
      (vue index render script : Str) (timestamp : Option Nat)
deriving DecidableEq, Repr

/-- `path` field of a `PseudoPath`. -/
def PseudoPath.pathOf : PseudoPath → Str
  | .file p _ => p
  | .vuePath p _ _ _ _ _ _ => p

/-- `timestamp` field of a `PseudoPath`. -/
def PseudoPath.tsOf : PseudoPath → Option Nat
  | .file _ t => t
  | .vuePath _ _ _ _ _ _ t => t

/-- `isVuePath` of `src/lib/pseudo.ts` (the `type` field is present). -/
def PseudoPath.isVue : PseudoPath → Bool
  | .file _ _ => false
  | .vuePath _ _ _ _ _ _ _ => true

/-- `type` field of a `PseudoPath` (`undefined` on plain files). -/
def PseudoPath.typeOf : PseudoPath → Option PseudoPathType
  | .file _ _ => none
  | .vuePath _ ty _ _ _ _ _ => some ty

/-- `vue` field of a vue `PseudoPath` (its own path on plain files, unused there). -/
def PseudoPath.vueOf : PseudoPath → Str
  | .file p _ => p
  | .vuePath _ _ v _ _ _ _ => v

/-- `isPseudoPathFound` of `src/lib/pseudo.ts` (the timestamp is present). -/
def PseudoPath.isFound (p : PseudoPath) : Bool := p.tsOf.isSome

/-- `VUE_EXT = '.vue'`. -/
def VUE_EXT : Str := ".vue".toList

/-- `VUE_PSEUDO_INDEX_SFX` (`${sep}index.ts` with the posix separator). -/
def VUE_PSEUDO_INDEX_SFX : Str := "/index.ts".toList

/-- `VUE_PSEUDO_INDEX_EXT = '.vue/index.ts'`. -/
def VUE_PSEUDO_INDEX_EXT : Str := VUE_EXT ++ VUE_PSEUDO_INDEX_SFX

/-- `VUE_PSEUDO_RENDER_SFX = '?render.ts'`. -/
def VUE_PSEUDO_RENDER_SFX : Str := "?render.ts".toList

/-- `VUE_PSEUDO_RENDER_EXT = '.vue?render.ts'`. -/
def VUE_PSEUDO_RENDER_EXT : Str := VUE_EXT ++ VUE_PSEUDO_RENDER_SFX

/-- `VUE_PSEUDO_SCRIPT_SFX = '?script.ts'`. -/
def VUE_PSEUDO_SCRIPT_SFX : Str := "?script.ts".toList

/-- `VUE_PSEUDO_SCRIPT_EXT = '.vue?script.ts'`. -/
def VUE_PSEUDO_SCRIPT_EXT : Str := VUE_EXT ++ VUE_PSEUDO_SCRIPT_SFX

/-- `pseudoType` of `src/lib/pseudo.ts` (lines 146-156): resolve the type of a
potential pseudo path, returning the owning `.vue` path and the type. -/
def pseudoType (path : Str) : Option (Str × PseudoPathType) :=
  if pEndsWith path VUE_EXT then
    some (path, .vue)
  else if pEndsWith path VUE_PSEUDO_INDEX_EXT then
    some (pDropRight path VUE_PSEUDO_INDEX_SFX.length, .index)
  else if pEndsWith path VUE_PSEUDO_RENDER_EXT then
    some (pDropRight path VUE_PSEUDO_RENDER_SFX.length, .render)
  else if pEndsWith path VUE_PSEUDO_SCRIPT_EXT then
    some (pDropRight path VUE_PSEUDO_SCRIPT_SFX.length, .script)
  else
    none

/-- `pseudoPath` of `src/lib/pseudo.ts` (lines 115-138): classify a (resolved)
file name into a `PseudoPath`, checking directory shadowing and timestamps
against the filesystem. -/
def pseudoPath (fs : FS) (file : Str) : PseudoPath :=
  let path := file
  match pseudoType path with
  | none => .file path (fs.mtime path)
  | some (vue, ty) =>
    if fs.dirExists vue then
      .file path (fs.mtime path)
    else
      .vuePath path ty vue
        (vue ++ VUE_PSEUDO_INDEX_SFX)
        (vue ++ VUE_PSEUDO_RENDER_SFX)
        (vue ++ VUE_PSEUDO_SCRIPT_SFX)
        (fs.mtime vue)

/- ========================================================================== *
 * STRING-SUFFIX HELPER LEMMAS                                                *
 * ========================================================================== -/

/-- A suffix check shorter than the trailing component ignores the prefix. -/
theorem suffix_append_iff_of_length_le {t s : Str} (pre : Str)
    (h : t.length ≤ s.length) : (t <:+ pre ++ s) ↔ (t <:+ s) := by
  constructor
  · intro hs
    rw [List.suffix_iff_eq_drop] at hs ⊢
    rw [List.length_append] at hs
    have heq : pre.length + s.length - t.length = pre.length + (s.length - t.length) := by
      omega
    rw [heq, List.drop_append] at hs
    exact hs
  · intro hs
    exact hs.trans (List.suffix_append pre s)

/-- Dropping the appended part of an append recovers the left part. -/
theorem pDropRight_append (s t : Str) : pDropRight (s ++ t) t.length = s := by
  unfold pDropRight
  rw [List.length_append]
  have heq : s.length + t.length - t.length = s.length := by omega
  rw [heq, List.take_left]

/-- `pEndsWith` specialized through `suffix_append_iff_of_length_le`. -/
theorem pEndsWith_append_of_length_le {t s : Str} (pre : Str)
    (h : t.length ≤ s.length) : pEndsWith (pre ++ s) t = pEndsWith s t := by
  unfold pEndsWith
  by_cases hc : t <:+ s
  · simp [hc, (suffix_append_iff_of_length_le pre h).mpr hc]
  · simp only [decide_eq_false_iff_not, decide_eq_false hc]
    intro hcon
    exact hc ((suffix_append_iff_of_length_le pre h).mp hcon)

/-- Classifying a document's derived index path strips the suffix. -/
theorem pseudoType_append_index {doc : Str} (hd : VUE_EXT <:+ doc) :
    pseudoType (doc ++ VUE_PSEUDO_INDEX_SFX) = some (doc, .index) := by
  obtain ⟨d, rfl⟩ := hd
  unfold pseudoType
  have h1 : pEndsWith (d ++ VUE_EXT ++ VUE_PSEUDO_INDEX_SFX) VUE_EXT = false := by
    rw [List.append_assoc, pEndsWith_append_of_length_le d (by decide)]
    decide
  have h2 : pEndsWith (d ++ VUE_EXT ++ VUE_PSEUDO_INDEX_SFX) VUE_PSEUDO_INDEX_EXT = true := by
    rw [List.append_assoc]
    unfold pEndsWith VUE_PSEUDO_INDEX_EXT
    simp [List.suffix_append]
  rw [h1, h2]
  simp only [if_true, if_false, Bool.false_eq_true]
  rw [pDropRight_append]

/-- Classifying a document's derived render path strips the suffix. -/
theorem pseudoType_append_render {doc : Str} (hd : VUE_EXT <:+ doc) :
    pseudoType (doc ++ VUE_PSEUDO_RENDER_SFX) = some (doc, .render) := by
  obtain ⟨d, rfl⟩ := hd
  unfold pseudoType
  have h1 : pEndsWith (d ++ VUE_EXT ++ VUE_PSEUDO_RENDER_SFX) VUE_EXT = false := by
    rw [List.append_assoc, pEndsWith_append_of_length_le d (by decide)]
    decide
  have h2 : pEndsWith (d ++ VUE_EXT ++ VUE_PSEUDO_RENDER_SFX) VUE_PSEUDO_INDEX_EXT = false := by
    rw [List.append_assoc, pEndsWith_append_of_length_le d (by decide)]
    decide
  have h3 : pEndsWith (d ++ VUE_EXT ++ VUE_PSEUDO_RENDER_SFX) VUE_PSEUDO_RENDER_EXT = true := by
    rw [List.append_assoc]
    unfold pEndsWith VUE_PSEUDO_RENDER_EXT
    simp [List.suffix_append]
  rw [h1, h2, h3]
  simp only [if_true, if_false, Bool.false_eq_true]
  rw [pDropRight_append]

/-- Classifying a document's derived script path strips the suffix. -/
theorem pseudoType_append_script {doc : Str} (hd : VUE_EXT <:+ doc) :
    pseudoType (doc ++ VUE_PSEUDO_SCRIPT_SFX) = some (doc, .script) := by
  obtain ⟨d, rfl⟩ := hd
  unfold pseudoType
  have h1 : pEndsWith (d ++ VUE_EXT ++ VUE_PSEUDO_SCRIPT_SFX) VUE_EXT = false := by
    rw [List.append_assoc, pEndsWith_append_of_length_le d (by decide)]
    decide
  have h2 : pEndsWith (d ++ VUE_EXT ++ VUE_PSEUDO_SCRIPT_SFX) VUE_PSEUDO_INDEX_EXT = false := by
    rw [List.append_assoc, pEndsWith_append_of_length_le d (by decide)]
    decide
  have h3 : pEndsWith (d ++ VUE_EXT ++ VUE_PSEUDO_SCRIPT_SFX) VUE_PSEUDO_RENDER_EXT = false := by
    rw [List.append_assoc, pEndsWith_append_of_length_le d (by decide)]
    decide
  have h4 : pEndsWith (d ++ VUE_EXT ++ VUE_PSEUDO_SCRIPT_SFX) VUE_PSEUDO_SCRIPT_EXT = true := by
    rw [List.append_assoc]
    unfold pEndsWith VUE_PSEUDO_SCRIPT_EXT
    simp [List.suffix_append]
  rw [h1, h2, h3, h4]
  simp only [if_true, if_false, Bool.false_eq_true]
  rw [pDropRight_append]

/-- A path ending in none of the recognized extensions has no pseudo type. -/
theorem pseudoType_eq_none {p : Str}
    (h1 : pEndsWith p VUE_EXT = false)
    (h2 : pEndsWith p VUE_PSEUDO_INDEX_EXT = false)
    (h3 : pEndsWith p VUE_PSEUDO_RENDER_EXT = false)
    (h4 : pEndsWith p VUE_PSEUDO_SCRIPT_EXT = false) :
    pseudoType p = none := by
  unfold pseudoType
  rw [h1, h2, h3, h4]
  simp

/-- Derived-path classification through `pseudoPath`, no shadowing directory. -/
theorem pseudoPath_derived {fs : FS} {doc sfx : Str} {ty : PseudoPathType}
    (hty : pseudoType (doc ++ sfx) = some (doc, ty))
    (hnodir : fs.dirExists doc = false) :
    pseudoPath fs (doc ++ sfx) =
      .vuePath (doc ++ sfx) ty doc
        (doc ++ VUE_PSEUDO_INDEX_SFX)
        (doc ++ VUE_PSEUDO_RENDER_SFX)
        (doc ++ VUE_PSEUDO_SCRIPT_SFX)
        (fs.mtime doc) := by
  simp only [pseudoPath]
  rw [hty]
  simp [hnodir]

/-- Derived-path classification through `pseudoPath`, shadowed by a directory. -/
theorem pseudoPath_shadowed {fs : FS} {p doc : Str} {ty : PseudoPathType}
    (hty : pseudoType p = some (doc, ty))
    (hdir : fs.dirExists doc = true) :
    pseudoPath fs p = .file p (fs.mtime p) := by
  simp only [pseudoPath]
  rw [hty]
  simp [hdir]

/- ========================================================================== *
 * CLAIM C5                                                                   *
 * ========================================================================== -/

/-- Concrete filesystem for the C5 counterexample: only `a/b.vue` exists. -/
def fsC5 : FS where
  mtime := fun p => if p = "a/b.vue".toList then some 5 else none
  dirExists := fun _ => false
  fileContents := fun _ => none

/-- C5 counterexample: with document `a/b.vue` present on disk, the suffix
`.vue` differs from all three derived suffixes, yet `a/b.vue.vue` is
classified as a document-self pseudo path (`type = 'vue'`), not as a plain
file — refuting "Plain for the document path followed by any other suffix". -/
theorem c5_counterexample :
    fsC5.mtime "a/b.vue".toList = some 5 ∧
    ".vue".toList ≠ VUE_PSEUDO_INDEX_SFX ∧
    ".vue".toList ≠ VUE_PSEUDO_RENDER_SFX ∧
    ".vue".toList ≠ VUE_PSEUDO_SCRIPT_SFX ∧
    (pseudoPath fsC5 ("a/b.vue".toList ++ ".vue".toList)).isVue = true ∧
    (pseudoPath fsC5 ("a/b.vue".toList ++ ".vue".toList)).typeOf =
      some PseudoPathType.vue := by
  refine ⟨by decide, by decide, by decide, by decide, ?_, ?_⟩ <;> decide

/-- C5 (amended): for a document path ending in the document extension that
exists on disk (and is not shadowed by a directory), `pseudoPath` classifies
the three derived suffixed paths as the index/render/script document variants
owned by the document and carrying its timestamp; appending any suffix that
leaves the path without the document extension or a derived-suffix ending
classifies as a plain file; and when a directory with the document's name
exists on disk, the document path and all three derived suffixed paths are
classified as plain files. -/
theorem c5_classify (fs : FS) (doc : Str) (hdoc : VUE_EXT <:+ doc) :
    (∀ t, fs.mtime doc = some t → fs.dirExists doc = false →
      pseudoPath fs (doc ++ VUE_PSEUDO_INDEX_SFX) =
        .vuePath (doc ++ VUE_PSEUDO_INDEX_SFX) .index doc
          (doc ++ VUE_PSEUDO_INDEX_SFX) (doc ++ VUE_PSEUDO_RENDER_SFX)
          (doc ++ VUE_PSEUDO_SCRIPT_SFX) (some t) ∧
      pseudoPath fs (doc ++ VUE_PSEUDO_RENDER_SFX) =
        .vuePath (doc ++ VUE_PSEUDO_RENDER_SFX) .render doc
          (doc ++ VUE_PSEUDO_INDEX_SFX) (doc ++ VUE_PSEUDO_RENDER_SFX)
          (doc ++ VUE_PSEUDO_SCRIPT_SFX) (some t) ∧
      pseudoPath fs (doc ++ VUE_PSEUDO_SCRIPT_SFX) =
        .vuePath (doc ++ VUE_PSEUDO_SCRIPT_SFX) .script doc
          (doc ++ VUE_PSEUDO_INDEX_SFX) (doc ++ VUE_PSEUDO_RENDER_SFX)
          (doc ++ VUE_PSEUDO_SCRIPT_SFX) (some t)) ∧
    (∀ sfx, pEndsWith (doc ++ sfx) VUE_EXT = false →
      pEndsWith (doc ++ sfx) VUE_PSEUDO_INDEX_EXT = false →
      pEndsWith (doc ++ sfx) VUE_PSEUDO_RENDER_EXT = false →
      pEndsWith (doc ++ sfx) VUE_PSEUDO_SCRIPT_EXT = false →
      (pseudoPath fs (doc ++ sfx)).isVue = false) ∧
    (fs.dirExists doc = true →
      (pseudoPath fs doc).isVue = false ∧
      (pseudoPath fs (doc ++ VUE_PSEUDO_INDEX_SFX)).isVue = false ∧
      (pseudoPath fs (doc ++ VUE_PSEUDO_RENDER_SFX)).isVue = false ∧
      (pseudoPath fs (doc ++ VUE_PSEUDO_SCRIPT_SFX)).isVue = false) := by
  refine ⟨?_, ?_, ?_⟩
  · intro t hts hnodir
    refine ⟨?_, ?_, ?_⟩
    · rw [pseudoPath_derived (pseudoType_append_index hdoc) hnodir, hts]
    · rw [pseudoPath_derived (pseudoType_append_render hdoc) hnodir, hts]
    · rw [pseudoPath_derived (pseudoType_append_script hdoc) hnodir, hts]
  · intro sfx h1 h2 h3 h4
    simp only [pseudoPath]
    rw [pseudoType_eq_none h1 h2 h3 h4]
    rfl
  · intro hdir
    have hvue : pseudoType doc = some (doc, .vue) := by
      unfold pseudoType
      unfold pEndsWith
      rw [decide_eq_true hdoc]
      rfl
    refine ⟨?_, ?_, ?_, ?_⟩
    · rw [pseudoPath_shadowed hvue hdir]; rfl
    · rw [pseudoPath_shadowed (pseudoType_append_index hdoc) hdir]; rfl
    · rw [pseudoPath_shadowed (pseudoType_append_render hdoc) hdir]; rfl
    · rw [pseudoPath_shadowed (pseudoType_append_script hdoc) hdir]; rfl

/-- C5 witness: the amended classification evaluated on the concrete
filesystem `fsC5` and document `a/b.vue`. -/
theorem c5_witness :
    (VUE_EXT <:+ "a/b.vue".toList) ∧
    pseudoPath fsC5 ("a/b.vue".toList ++ VUE_PSEUDO_RENDER_SFX) =
      .vuePath ("a/b.vue".toList ++ VUE_PSEUDO_RENDER_SFX) .render "a/b.vue".toList
        ("a/b.vue".toList ++ VUE_PSEUDO_INDEX_SFX)
        ("a/b.vue".toList ++ VUE_PSEUDO_RENDER_SFX)
        ("a/b.vue".toList ++ VUE_PSEUDO_SCRIPT_SFX) (some 5) ∧
    (pseudoPath fsC5 ("a/b.vue".toList ++ ".txt".toList)).isVue = false := by
  have hdoc : VUE_EXT <:+ "a/b.vue".toList := by decide
  have h := c5_classify fsC5 "a/b.vue".toList hdoc
  refine ⟨hdoc, ?_, ?_⟩
  · exact (h.1 5 (by decide) (by decide)).2.1
  · exact h.2.1 ".txt".toList (by decide) (by decide) (by decide) (by decide)

/- ========================================================================== *
 * INCREMENTAL CONTENT CACHE (src/lib/cache.ts, createCache revision)         *
 * ========================================================================== -/

/-- The `Record<string, [number, T]>` backing a cache: an association list of
path keyed `(timestamp, value)` entries with replace-on-set semantics. -/
abbrev CacheMap (T : Type) := List (Str × Nat × T)

/-- Property read `_cache[path]` (also the injected `get` method). -/
def cacheGet {T : Type} : CacheMap T → Str → Option (Nat × T)
  | [], _ => none
  | (q, e) :: rest, p => if q = p then some e else cacheGet rest p

/-- Property write `_cache[path] = [timestamp, value]` (also the injected
`set` method): replaces the entry for the key, or appends a fresh one. -/
def cacheSet {T : Type} : CacheMap T → Str → Nat × T → CacheMap T
  | [], p, e => [(p, e)]
  | (q, e0) :: rest, p, e =>
    if q = p then (p, e) :: rest else (q, e0) :: cacheSet rest p e

/-- `delete _cache[path]` (also the injected `del` method). -/
def cacheDel {T : Type} : CacheMap T → Str → CacheMap T
  | [], _ => []
  | (q, e0) :: rest, p =>
    if q = p then cacheDel rest p else (q, e0) :: cacheDel rest p

/-- Outcome of one invocation of the caching function: the new cache map, the
resolved pseudo path, the optional value (`[pseudo]` vs `[pseudo, result]`
in the source), and — as instrumentation — whether the compute callback ran. -/
structure CacheCall (T : Type) where
  state : CacheMap T
  pseudo : PseudoPath
  result : Option T
  invoked : Bool
deriving DecidableEq

/-- The caching function of `src/lib/cache.ts` (`createCache`, the revision
used by `core/compiler.ts`): resolve the pseudo path; purge and return empty
when the file is not found; answer from the cache when the stored timestamp
equals the current one; otherwise read the real file (the owning `.vue` file
for document-derived paths), purge if it disappeared, or run the callback and
store `(timestamp, result)` under the requested pseudo path. -/
def cacheRun {T : Type} (fs : FS) (m : CacheMap T) (file : Str)
    (callback : PseudoPath → Str → T) : CacheCall T :=
  let p := pseudoPath fs file
  match p.tsOf with
  | none => ⟨cacheDel m p.pathOf, p, none, false⟩
  | some ts =>
    let hit : Option T :=
      match cacheGet m p.pathOf with
      | some (cachedTs, result) => if ts = cachedTs then some result else none
      | none => none
    match hit with
    | some result => ⟨m, p, some result, false⟩
    | none =>
      match fs.fileContents (if p.isVue then p.vueOf else p.pathOf) with
      | none => ⟨cacheDel m p.pathOf, p, none, false⟩
      | some contents =>
        let result := callback p contents
        ⟨cacheSet m p.pathOf (ts, result), p, some result, true⟩

/-- Reading back a freshly set key. -/
theorem cacheGet_cacheSet {T : Type} (m : CacheMap T) (p : Str) (e : Nat × T) :
    cacheGet (cacheSet m p e) p = some e := by
  induction m with
  | nil => simp [cacheSet, cacheGet]
  | cons h rest ih =>
    obtain ⟨q, e0⟩ := h
    by_cases hq : q = p
    · simp [cacheSet, cacheGet, hq]
    · simp [cacheSet, cacheGet, hq, ih]

/-- Reading back a deleted key. -/
theorem cacheGet_cacheDel {T : Type} (m : CacheMap T) (p : Str) :
    cacheGet (cacheDel m p) p = none := by
  induction m with
  | nil => simp [cacheDel, cacheGet]
  | cons h rest ih =>
    obtain ⟨q, e0⟩ := h
    by_cases hq : q = p
    · simp [cacheDel, hq, ih]
    · simp [cacheDel, cacheGet, hq, ih]

/-- Deleting does not touch other keys. -/
theorem cacheGet_cacheDel_ne {T : Type} (m : CacheMap T) (p q : Str)
    (h : p ≠ q) : cacheGet (cacheDel m p) q = cacheGet m q := by
  induction m with
  | nil => simp [cacheDel]
  | cons hd rest ih =>
    obtain ⟨r, e0⟩ := hd
    by_cases hr : r = p
    · subst hr
      simp [cacheDel, cacheGet, h, ih]
    · simp only [cacheDel, if_neg hr, cacheGet]
      by_cases hq : r = q
      · simp [hq]
      · simp [hq, ih]

/-- Setting does not touch other keys. -/
theorem cacheGet_cacheSet_ne {T : Type} (m : CacheMap T) (p q : Str)
    (e : Nat × T) (h : p ≠ q) : cacheGet (cacheSet m p e) q = cacheGet m q := by
  induction m with
  | nil => simp [cacheSet, cacheGet, h]
  | cons hd rest ih =>
    obtain ⟨r, e0⟩ := hd
    by_cases hr : r = p
    · subst hr
      simp [cacheSet, cacheGet, h, ih]
    · simp only [cacheSet, if_neg hr, cacheGet]
      by_cases hq : r = q
      · simp [hq]
      · simp [hq, ih]

/-- A call that produced a value leaves a cache entry holding the file's
current timestamp and that value under the requested pseudo path. -/
theorem cacheRun_cached_entry {T : Type} (fs : FS) (m : CacheMap T) (file : Str)
    (cb : PseudoPath → Str → T) (r : T)
    (h : (cacheRun fs m file cb).result = some r) :
    ∃ ts, (pseudoPath fs file).tsOf = some ts ∧
      cacheGet (cacheRun fs m file cb).state (pseudoPath fs file).pathOf =
        some (ts, r) := by
  simp only [cacheRun] at h ⊢
  split at h
  · exact absurd h (by simp)
  · rename_i ts hts
    refine ⟨ts, hts, ?_⟩
    split at h
    · rename_i res hhit
      simp only [Option.some.injEq] at h
      subst h
      split at hhit
      · rename_i cts res0 hget
        split at hhit
        · rename_i hc
          simp only [Option.some.injEq] at hhit
          subst hhit
          subst hc
          exact hget
        · exact absurd hhit (by simp)
      · exact absurd hhit (by simp)
    · split at h
      · exact absurd h (by simp)
      · rename_i c hcont
        simp only [Option.some.injEq] at h
        subst h
        exact cacheGet_cacheSet m _ _

/-- A call served by a fresh cache entry neither invokes the callback nor
changes the cache. -/
theorem cacheRun_hit {T : Type} (fs : FS) (m : CacheMap T) (file : Str)
    (cb : PseudoPath → Str → T) (ts : Nat) (r : T)
    (hts : (pseudoPath fs file).tsOf = some ts)
    (hentry : cacheGet m (pseudoPath fs file).pathOf = some (ts, r)) :
    cacheRun fs m file cb = ⟨m, pseudoPath fs file, some r, false⟩ := by
  simp only [cacheRun]
  rw [hts, hentry]
  simp

/-- A call finding a stale timestamp re-reads the file and invokes the
callback, storing the fresh entry. -/
theorem cacheRun_stale {T : Type} (fs : FS) (m : CacheMap T) (file : Str)
    (cb : PseudoPath → Str → T) (ts cts : Nat) (r0 : T) (c : Str)
    (hts : (pseudoPath fs file).tsOf = some ts)
    (hentry : cacheGet m (pseudoPath fs file).pathOf = some (cts, r0))
    (hne : ts ≠ cts)
    (hcont : fs.fileContents
      (if (pseudoPath fs file).isVue then (pseudoPath fs file).vueOf
       else (pseudoPath fs file).pathOf) = some c) :
    cacheRun fs m file cb =
      ⟨cacheSet m (pseudoPath fs file).pathOf (ts, cb (pseudoPath fs file) c),
        pseudoPath fs file, some (cb (pseudoPath fs file) c), true⟩ := by
  simp only [cacheRun]
  split
  · rename_i hts0
    rw [hts] at hts0
    exact absurd hts0 (by simp)
  · rename_i ts0 hts0
    rw [hts] at hts0
    injection hts0 with hts0
    subst hts0
    split
    · rename_i res hhit
      split at hhit
      · rename_i cts0 r00 hget
        rw [hentry] at hget
        injection hget with hget
        injection hget with hg1 hg2
        subst hg1
        rw [if_neg hne] at hhit
        exact absurd hhit (by simp)
      · rename_i hget
        rw [hentry] at hget
        exact absurd hget (by simp)
    · rename_i hhit
      split
      · rename_i hcont0
        rw [hcont] at hcont0
        exact absurd hcont0 (by simp)
      · rename_i c0 hcont0
        rw [hcont] at hcont0
        injection hcont0 with hcont0
        subst hcont0
        rfl

/-- A call on a file with no timestamp purges the entry and returns nothing. -/
theorem cacheRun_gone {T : Type} (fs : FS) (m : CacheMap T) (file : Str)
    (cb : PseudoPath → Str → T)
    (hts : (pseudoPath fs file).tsOf = none) :
    cacheRun fs m file cb =
      ⟨cacheDel m (pseudoPath fs file).pathOf, pseudoPath fs file, none, false⟩ := by
  simp only [cacheRun]
  split
  · rfl
  · rename_i ts0 hts0
    rw [hts] at hts0
    exact absurd hts0 (by simp)

/-- A call whose file disappears between the stat and the read purges the
entry and returns nothing. -/
theorem cacheRun_disappeared {T : Type} (fs : FS) (m : CacheMap T) (file : Str)
    (cb : PseudoPath → Str → T) (ts : Nat)
    (hts : (pseudoPath fs file).tsOf = some ts)
    (hmiss : ∀ e, cacheGet m (pseudoPath fs file).pathOf = some e → ts ≠ e.1)
    (hcont : fs.fileContents
      (if (pseudoPath fs file).isVue then (pseudoPath fs file).vueOf
       else (pseudoPath fs file).pathOf) = none) :
    cacheRun fs m file cb =
      ⟨cacheDel m (pseudoPath fs file).pathOf, pseudoPath fs file, none, false⟩ := by
  simp only [cacheRun]
  split
  · rfl
  · rename_i ts0 hts0
    rw [hts] at hts0
    injection hts0 with hts0
    subst hts0
    split
    · rename_i res hhit
      split at hhit
      · rename_i cts0 r00 hget
        have := hmiss _ hget
        rw [if_neg this] at hhit
        exact absurd hhit (by simp)
      · exact absurd hhit (by simp)
    · split
      · rfl
      · rename_i c0 hcont0
        rw [hcont] at hcont0
        exact absurd hcont0 (by simp)

/- ========================================================================== *
 * CLAIM C3                                                                   *
 * ========================================================================== -/

/-- C3: the cache (a) does not invoke the compute callback again — and
returns the cached value unchanged — when a produced value is re-queried
with the file's timestamp unchanged; (b) invokes the callback again when the
current timestamp differs from the cached one; (c) purges the entry and
returns absent when the file has no timestamp; and (d) purges the entry and
returns absent when the file disappears between the stat and the read. -/
theorem c3_cache_correct (T : Type) :
    (∀ (fs : FS) (m : CacheMap T) (file : Str)
        (cb cb2 : PseudoPath → Str → T) (r : T),
      (cacheRun fs m file cb).result = some r →
      cacheRun fs (cacheRun fs m file cb).state file cb2 =
        ⟨(cacheRun fs m file cb).state, pseudoPath fs file, some r, false⟩) ∧
    (∀ (fs : FS) (m : CacheMap T) (file : Str) (cb : PseudoPath → Str → T)
        (ts cts : Nat) (r0 : T) (c : Str),
      (pseudoPath fs file).tsOf = some ts →
      cacheGet m (pseudoPath fs file).pathOf = some (cts, r0) →
      ts ≠ cts →
      fs.fileContents
        (if (pseudoPath fs file).isVue then (pseudoPath fs file).vueOf
         else (pseudoPath fs file).pathOf) = some c →
      (cacheRun fs m file cb).invoked = true ∧
      (cacheRun fs m file cb).result = some (cb (pseudoPath fs file) c)) ∧
    (∀ (fs : FS) (m : CacheMap T) (file : Str) (cb : PseudoPath → Str → T),
      (pseudoPath fs file).tsOf = none →
      (cacheRun fs m file cb).result = none ∧
      cacheGet (cacheRun fs m file cb).state (pseudoPath fs file).pathOf = none) ∧
    (∀ (fs : FS) (m : CacheMap T) (file : Str) (cb : PseudoPath → Str → T)
        (ts : Nat),
      (pseudoPath fs file).tsOf = some ts →
      (∀ e, cacheGet m (pseudoPath fs file).pathOf = some e → ts ≠ e.1) →
      fs.fileContents
        (if (pseudoPath fs file).isVue then (pseudoPath fs file).vueOf
         else (pseudoPath fs file).pathOf) = none →
      (cacheRun fs m file cb).result = none ∧
      cacheGet (cacheRun fs m file cb).state (pseudoPath fs file).pathOf = none) := by
  refine ⟨?_, ?_, ?_, ?_⟩
  · intro fs m file cb cb2 r h
    obtain ⟨ts, hts, hentry⟩ := cacheRun_cached_entry fs m file cb r h
    exact cacheRun_hit fs _ file cb2 ts r hts hentry
  · intro fs m file cb ts cts r0 c hts hentry hne hcont
    rw [cacheRun_stale fs m file cb ts cts r0 c hts hentry hne hcont]
    exact ⟨rfl, rfl⟩
  · intro fs m file cb hts
    rw [cacheRun_gone fs m file cb hts]
    exact ⟨rfl, cacheGet_cacheDel m _⟩
  · intro fs m file cb ts hts hmiss hcont
    rw [cacheRun_disappeared fs m file cb ts hts hmiss hcont]
    exact ⟨rfl, cacheGet_cacheDel m _⟩

/-- Concrete filesystems for the C3 witness: `x.ts` with timestamp 1, the
same file with timestamp 2, the file absent, and the file visible to `stat`
but unreadable. -/
def fsC3a : FS where
  mtime := fun p => if p = "x.ts".toList then some 1 else none
  dirExists := fun _ => false
  fileContents := fun p => if p = "x.ts".toList then some "abc".toList else none

/-- The C3 witness filesystem with the timestamp bumped to 2. -/
def fsC3b : FS where
  mtime := fun p => if p = "x.ts".toList then some 2 else none
  dirExists := fun _ => false
  fileContents := fun p => if p = "x.ts".toList then some "abcd".toList else none

/-- The C3 witness filesystem with the file deleted. -/
def fsC3c : FS where
  mtime := fun _ => none
  dirExists := fun _ => false
  fileContents := fun _ => none

/-- The C3 witness filesystem where the file disappears between stat and read. -/
def fsC3d : FS where
  mtime := fun p => if p = "x.ts".toList then some 2 else none
  dirExists := fun _ => false
  fileContents := fun _ => none

/-- The compute callback used by the C3 witness: the content's length. -/
def cbLen : PseudoPath → Str → Nat := fun _ c => c.length

/-- C3 witness: the four cache properties evaluated on `x.ts` with concrete
filesystems and the length callback. -/
theorem c3_witness :
    ((cacheRun fsC3a [] "x.ts".toList cbLen).result = some 3 ∧
      cacheRun fsC3a (cacheRun fsC3a [] "x.ts".toList cbLen).state
          "x.ts".toList cbLen =
        ⟨(cacheRun fsC3a [] "x.ts".toList cbLen).state,
          pseudoPath fsC3a "x.ts".toList, some 3, false⟩) ∧
    ((cacheRun fsC3b [("x.ts".toList, 1, 3)] "x.ts".toList cbLen).invoked = true ∧
      (cacheRun fsC3b [("x.ts".toList, 1, 3)] "x.ts".toList cbLen).result = some 4) ∧
    ((cacheRun fsC3c [("x.ts".toList, 1, 3)] "x.ts".toList cbLen).result = none ∧
      cacheGet (cacheRun fsC3c [("x.ts".toList, 1, 3)] "x.ts".toList cbLen).state
        (pseudoPath fsC3c "x.ts".toList).pathOf = none) ∧
    ((cacheRun fsC3d [("x.ts".toList, 1, 3)] "x.ts".toList cbLen).result = none ∧
      cacheGet (cacheRun fsC3d [("x.ts".toList, 1, 3)] "x.ts".toList cbLen).state
        (pseudoPath fsC3d "x.ts".toList).pathOf = none) := by
  have h := c3_cache_correct Nat
  refine ⟨⟨by decide, h.1 fsC3a [] "x.ts".toList cbLen cbLen 3 (by decide)⟩, ?_, ?_, ?_⟩
  · have h2 := h.2.1 fsC3b [("x.ts".toList, 1, 3)] "x.ts".toList cbLen 2 1 3
      "abcd".toList (by decide) (by decide) (by decide) (by decide)
    exact ⟨h2.1, h2.2⟩
  · exact h.2.2.1 fsC3c [("x.ts".toList, 1, 3)] "x.ts".toList cbLen (by decide)
  · exact h.2.2.2 fsC3d [("x.ts".toList, 1, 3)] "x.ts".toList cbLen 2 (by decide)
      (by intro e he; cases he; decide) (by decide)

/- ========================================================================== *
 * REPORT AGGREGATOR (src/core/reports.ts)                                    *
 * ========================================================================== -/

/-- Report severities (`src/core/reports.ts`). -/
inductive Severity where
  | error
  | message
  | suggestion
  | warning
  | unknown
deriving DecidableEq, Repr

/-- A report location: 1-based line, 0-based column, the context line and the
highlight length. Numbers are `Int` because the clipped `contextLength` can
go negative (see C9). -/
structure Location where
  line : Int
  column : Int
  context : Str
  contextLength : Int
deriving DecidableEq, Repr

/-- The `Report` interface of `src/core/reports.ts` (`isError`/`isWarning`
are optional `true` flags, modeled as booleans; `fileName` and `location`
are optional). -/
structure Report where
  code : Nat
  message : Str
  severity : Severity
  isError : Bool
  isWarning : Bool
  fileName : Option Str
  location : Option Location
deriving DecidableEq, Repr

/-- `Reports.hasErrors`: `this.find((report) => report.isError)?.isError || false`. -/
def hasErrors (rs : List Report) : Bool :=
  match rs.find? (fun r => r.isError) with
  | some r => r.isError
  | none => false

/-- `Reports.hasWarnings`: `this.find((report) => report.isWarning)?.isWarning || false`. -/
def hasWarnings (rs : List Report) : Bool :=
  match rs.find? (fun r => r.isWarning) with
  | some r => r.isWarning
  | none => false

/-- JavaScript string comparison (`<` / `>` on strings): lexicographic by
character code. -/
def pCompare : Str → Str → Ordering
  | [], [] => .eq
  | [], _ :: _ => .lt
  | _ :: _, [] => .gt
  | a :: as, b :: bs =>
    if a < b then .lt else if b < a then .gt else pCompare as bs

/-- `Number.MAX_SAFE_INTEGER`, the default for a missing line or column. -/
def MSI : Int := 9007199254740991

/-- The `compare` comparator of `src/core/reports.ts` (lines 83-97): order by
file name (default empty), then line, then column (both defaulting to
`Number.MAX_SAFE_INTEGER` when the location is missing). -/
def reportCompare (a b : Report) : Int :=
  let af := a.fileName.getD []
  let bf := b.fileName.getD []
  let al := match a.location with | some l => l.line | none => MSI
  let bl := match b.location with | some l => l.line | none => MSI
  let ac := match a.location with | some l => l.column | none => MSI
  let bc := match b.location with | some l => l.column | none => MSI
  if pCompare af bf = .lt then -1
  else if pCompare af bf = .gt then 1
  else if al < bl then -1
  else if al > bl then 1
  else if ac < bc then -1
  else if ac > bc then 1
  else 0

/-- The sort key realized by `reportCompare`: file name (empty when absent),
then line and column with missing location mapped to `MSI`. -/
def reportKey (r : Report) : Str × Int × Int :=
  (r.fileName.getD [],
   match r.location with | some l => l.line | none => MSI,
   match r.location with | some l => l.column | none => MSI)

/-- Strict lexicographic order on report keys. -/
def keyLt (x y : Str × Int × Int) : Prop :=
  pCompare x.1 y.1 = .lt ∨
    (pCompare x.1 y.1 = .eq ∧
      (x.2.1 < y.2.1 ∨ (x.2.1 = y.2.1 ∧ x.2.2 < y.2.2)))

/-- `pCompare` is reflexively `.eq`. -/
theorem pCompare_self (s : Str) : pCompare s s = .eq := by
  induction s with
  | nil => rfl
  | cons a as ih => simp [pCompare, ih, lt_irrefl]

/-- `pCompare` returns `.eq` exactly on equal strings. -/
theorem pCompare_eq_iff {s t : Str} : pCompare s t = .eq ↔ s = t := by
  induction s generalizing t with
  | nil => cases t <;> simp [pCompare]
  | cons a as ih =>
    cases t with
    | nil => simp [pCompare]
    | cons b bs =>
      by_cases h1 : a < b
      · simp [pCompare, h1]
        intro h
        subst h
        exact absurd h1 (lt_irrefl a)
      · by_cases h2 : b < a
        · simp [pCompare, h1, h2]
          intro h
          subst h
          exact absurd h2 (lt_irrefl a)
        · have hab : a = b := le_antisymm (not_lt.mp h2) (not_lt.mp h1)
          subst hab
          simp [pCompare, ih]

/-- The integer tail of the comparator's if-chain, negative iff (line,
column) is lexicographically smaller. -/
theorem intChain_lt_iff (al bl ac bc : Int) :
    ((if al < bl then (-1 : Int) else if al > bl then 1
      else if ac < bc then -1 else if ac > bc then 1 else 0) < 0) ↔
    (al < bl ∨ (al = bl ∧ ac < bc)) := by
  split_ifs with h1 h2 h3 h4
  · exact iff_of_true (by norm_num) (Or.inl h1)
  · exact iff_of_false (by norm_num) (by rintro (h | ⟨he, hc⟩) <;> omega)
  · exact iff_of_true (by norm_num) (Or.inr ⟨by omega, h3⟩)
  · exact iff_of_false (by norm_num) (by rintro (h | ⟨he, hc⟩) <;> omega)
  · exact iff_of_false (by norm_num) (by rintro (h | ⟨he, hc⟩) <;> omega)

/-- The integer tail of the comparator's if-chain, zero iff (line, column)
coincide. -/
theorem intChain_eq_iff (al bl ac bc : Int) :
    ((if al < bl then (-1 : Int) else if al > bl then 1
      else if ac < bc then -1 else if ac > bc then 1 else 0) = 0) ↔
    (al = bl ∧ ac = bc) := by
  split_ifs with h1 h2 h3 h4
  · exact iff_of_false (by norm_num) (by rintro ⟨he, hc⟩; omega)
  · exact iff_of_false (by norm_num) (by rintro ⟨he, hc⟩; omega)
  · exact iff_of_false (by norm_num) (by rintro ⟨he, hc⟩; omega)
  · exact iff_of_false (by norm_num) (by rintro ⟨he, hc⟩; omega)
  · exact iff_of_true (by norm_num) ⟨by omega, by omega⟩

/-- The comparator's if-chain, abstracted: strictly negative exactly on
lexicographically smaller keys. -/
theorem cmpChain_lt_iff (o : Ordering) (al bl ac bc : Int) :
    ((if o = .lt then (-1 : Int) else if o = .gt then 1
      else if al < bl then -1 else if al > bl then 1
      else if ac < bc then -1 else if ac > bc then 1 else 0) < 0) ↔
    (o = .lt ∨ (o = .eq ∧ (al < bl ∨ (al = bl ∧ ac < bc)))) := by
  cases o
  · simp
  · rw [if_neg (by decide : ¬ (Ordering.eq = Ordering.lt)),
        if_neg (by decide : ¬ (Ordering.eq = Ordering.gt))]
    simpa using intChain_lt_iff al bl ac bc
  · simp

/-- The comparator's if-chain, abstracted: zero exactly on equal keys. -/
theorem cmpChain_eq_iff (o : Ordering) (al bl ac bc : Int) :
    ((if o = .lt then (-1 : Int) else if o = .gt then 1
      else if al < bl then -1 else if al > bl then 1
      else if ac < bc then -1 else if ac > bc then 1 else 0) = 0) ↔
    (o = .eq ∧ al = bl ∧ ac = bc) := by
  cases o
  · simp
  · rw [if_neg (by decide : ¬ (Ordering.eq = Ordering.lt)),
        if_neg (by decide : ¬ (Ordering.eq = Ordering.gt))]
    simpa using intChain_eq_iff al bl ac bc
  · simp

/-- C8: the report comparator realizes the lexicographic (file name, line,
column) order — `compare a b < 0` iff the key of `a` (file name defaulting
to empty, line and column defaulting to `Number.MAX_SAFE_INTEGER` when the
location is missing) is lexicographically below the key of `b`, and
`compare a b = 0` iff the keys coincide, so a report with a missing location
sorts after any same-file report whose line is below the maximum integer;
and `hasErrors`/`hasWarnings` hold exactly when some report is flagged
as error/warning respectively. -/
theorem c8_reports :
    (∀ a b : Report,
      (reportCompare a b < 0 ↔ keyLt (reportKey a) (reportKey b)) ∧
      (reportCompare a b = 0 ↔ reportKey a = reportKey b)) ∧
    (∀ a b : Report, a.fileName = b.fileName → b.location = none →
      ∀ la, a.location = some la → la.line < MSI → reportCompare a b < 0) ∧
    (∀ rs : List Report, hasErrors rs = true ↔ ∃ r ∈ rs, r.isError = true) ∧
    (∀ rs : List Report, hasWarnings rs = true ↔ ∃ r ∈ rs, r.isWarning = true) := by
  have hchar : ∀ a b : Report,
      (reportCompare a b < 0 ↔ keyLt (reportKey a) (reportKey b)) ∧
      (reportCompare a b = 0 ↔ reportKey a = reportKey b) := by
    intro a b
    constructor
    · exact cmpChain_lt_iff (pCompare (a.fileName.getD []) (b.fileName.getD []))
        (match a.location with | some l => l.line | none => MSI)
        (match b.location with | some l => l.line | none => MSI)
        (match a.location with | some l => l.column | none => MSI)
        (match b.location with | some l => l.column | none => MSI)
    · refine (cmpChain_eq_iff (pCompare (a.fileName.getD []) (b.fileName.getD []))
        (match a.location with | some l => l.line | none => MSI)
        (match b.location with | some l => l.line | none => MSI)
        (match a.location with | some l => l.column | none => MSI)
        (match b.location with | some l => l.column | none => MSI)).trans ?_
      rw [pCompare_eq_iff]
      simp only [reportKey, Prod.ext_iff]
  refine ⟨hchar, ?_, ?_, ?_⟩
  · intro a b hf hbl la hla hlt
    refine ((hchar a b).1).mpr ?_
    have hfe : pCompare ((reportKey a).1) ((reportKey b).1) = .eq := by
      simp only [reportKey, hf]
      exact pCompare_self _
    refine Or.inr ⟨hfe, Or.inl ?_⟩
    simp only [reportKey, hla, hbl]
    exact hlt
  · intro rs
    unfold hasErrors
    cases hf : rs.find? (fun r => r.isError) with
    | none =>
      simp only [Bool.false_eq_true, false_iff]
      rintro ⟨r, hr, he⟩
      have := List.find?_eq_none.mp hf r hr
      simp [he] at this
    | some r =>
      have h1 := List.find?_some hf
      have h2 := List.mem_of_find?_eq_some hf
      simp only [h1, true_iff]
      exact ⟨r, h2, by simpa using h1⟩
  · intro rs
    unfold hasWarnings
    cases hf : rs.find? (fun r => r.isWarning) with
    | none =>
      simp only [Bool.false_eq_true, false_iff]
      rintro ⟨r, hr, he⟩
      have := List.find?_eq_none.mp hf r hr
      simp [he] at this
    | some r =>
      have h1 := List.find?_some hf
      have h2 := List.mem_of_find?_eq_some hf
      simp only [h1, true_iff]
      exact ⟨r, h2, by simpa using h1⟩

/-- A concrete error report for the C8 witness. -/
def repA : Report :=
  { code := 1, message := "m".toList, severity := .error, isError := true,
    isWarning := false, fileName := some "a.ts".toList,
    location := some ⟨3, 2, "ctx".toList, 1⟩ }

/-- A concrete warning report without location for the C8 witness. -/
def repB : Report :=
  { code := 2, message := "n".toList, severity := .warning, isError := false,
    isWarning := true, fileName := some "a.ts".toList, location := none }

/-- C8 witness: comparator and flag behaviour on two concrete reports. -/
theorem c8_witness :
    reportCompare repA repB < 0 ∧
    keyLt (reportKey repA) (reportKey repB) ∧
    hasErrors [repA, repB] = true ∧
    hasWarnings [repA, repB] = true := by
  have h := c8_reports
  have hcmp : reportCompare repA repB < 0 :=
    h.2.1 repA repB rfl rfl ⟨3, 2, "ctx".toList, 1⟩ rfl (by decide)
  refine ⟨hcmp, (h.1 repA repB).1.mp hcmp, ?_, ?_⟩
  · exact (h.2.2.1 [repA, repB]).mpr ⟨repA, by simp, rfl⟩
  · exact (h.2.2.2 [repA, repB]).mpr ⟨repB, by simp, rfl⟩

/-- The location assembly of `reportLocation` (src/core/reports.ts lines
171-197): given the 0-based line and character of the diagnostic start, the
extracted context line and the optional diagnostic length, clip the length
to the end of the line and emit a 1-based line / 0-based column location. -/
def reportLocation (line0 character : Nat) (contextLine : Str)
    (length? : Option Nat) : Location :=
  let contextLength0 : Int := (length?.getD 0 : Nat)
  let contextLength : Int :=
    if (character : Int) + contextLength0 > (contextLine.length : Int) then
      (contextLine.length : Int) - (character : Int)
    else contextLength0
  { line := (line0 : Int) + 1, column := (character : Int),
    context := contextLine, contextLength := contextLength }

/-- The location assembly of `reportLocationWithSourceMap` (src/core/reports.ts
lines 200-241): given the mapped original position (`line` falsy — absent or
zero — aborts; `column` defaults to 0), the original source content recorded
in the map and the optional diagnostic length; the context line is the
1-based `line`-th line of the source (empty when out of range) and the
length is clipped against that original line. -/
def reportLocationWithSourceMap (origLine? : Option Nat) (origCol? : Option Nat)
    (source : Str) (length? : Option Nat) : Option Location :=
  match origLine? with
  | none => none
  | some 0 => none
  | some line =>
    let column := origCol?.getD 0
    let contextLine := (List.splitOn '\n' source).getD (line - 1) []
    let contextLength0 : Int := (length?.getD 0 : Nat)
    let contextLength : Int :=
      if (column : Int) + contextLength0 > (contextLine.length : Int) then
        (contextLine.length : Int) - (column : Int)
      else contextLength0
    some { line := (line : Int), column := (column : Int),
           context := contextLine, contextLength := contextLength }

/-- C9: in both the plain-file and the source-mapped location builders the
highlight length is clipped to `contextLine.length - column` whenever
`column + length` exceeds the context line's length, so `column +
contextLength` never exceeds the line length; but no lower bound of zero is
enforced, so a diagnostic whose column exceeds the context line's length
gets a negative `contextLength`. -/
theorem c9_highlight_clipping :
    (∀ (line0 character : Nat) (contextLine : Str) (length? : Option Nat),
      (reportLocation line0 character contextLine length?).column +
        (reportLocation line0 character contextLine length?).contextLength ≤
        (contextLine.length : Int) ∧
      ((contextLine.length : Int) < (character : Int) →
        (reportLocation line0 character contextLine length?).contextLength < 0)) ∧
    (∀ (origLine? origCol? : Option Nat) (source : Str) (length? : Option Nat)
        (loc : Location),
      reportLocationWithSourceMap origLine? origCol? source length? = some loc →
      loc.column + loc.contextLength ≤ (loc.context.length : Int) ∧
      ((loc.context.length : Int) < loc.column → loc.contextLength < 0)) := by
  constructor
  · intro line0 character contextLine length?
    simp only [reportLocation]
    constructor
    · split_ifs with h <;> omega
    · intro hlt
      have : (character : Int) + (length?.getD 0 : Nat) > (contextLine.length : Int) := by
        have : (0 : Int) ≤ (length?.getD 0 : Nat) := Int.ofNat_nonneg _
        omega
      rw [if_pos this]
      omega
  · intro origLine? origCol? source length? loc h
    match origLine? with
    | none => cases h
    | some 0 => cases h
    | some (n + 1) =>
      simp only [reportLocationWithSourceMap] at h
      cases h
      constructor
      · dsimp only
        split_ifs with h <;> omega
      · intro hlt
        dsimp only at hlt ⊢
        have hge : (0 : Int) ≤ ((length?.getD 0 : Nat) : Int) := Int.ofNat_nonneg _
        have hcl : ((origCol?.getD 0 : Nat) : Int) + ((length?.getD 0 : Nat) : Int) >
            (((List.splitOn '\n' source).getD (n + 1 - 1) []).length : Int) := by
          omega
        rw [if_pos hcl]
        omega

/-- C9 witness: a diagnostic of length 3 at column 7 of the two-character
line `ab` is clipped to the line, with a negative highlight length, in the
plain case; and a mapped diagnostic at original column 9 of the original
line `xy` gets `contextLength = -7` in the source-mapped case. -/
theorem c9_witness :
    ((reportLocation 0 7 "ab".toList (some 3)).column +
      (reportLocation 0 7 "ab".toList (some 3)).contextLength ≤
      (("ab".toList : Str).length : Int)) ∧
    (reportLocation 0 7 "ab".toList (some 3)).contextLength < 0 ∧
    ∃ loc, reportLocationWithSourceMap (some 1) (some 9) "xy".toList (some 2) =
        some loc ∧ loc.contextLength < 0 := by
  have h := c9_highlight_clipping
  have hloc : reportLocationWithSourceMap (some 1) (some 9) "xy".toList (some 2) =
      some ⟨1, 9, "xy".toList, -7⟩ := by decide
  refine ⟨(h.1 0 7 "ab".toList (some 3)).1, (h.1 0 7 "ab".toList (some 3)).2 (by decide), ?_⟩
  exact ⟨⟨1, 9, "xy".toList, -7⟩, hloc,
    (h.2 (some 1) (some 9) "xy".toList (some 2) ⟨1, 9, "xy".toList, -7⟩ hloc).2 (by decide)⟩

/- ========================================================================== *
 * DOCUMENT TRANSPILER (src/core/transpile.ts)                                *
 * ========================================================================== -/

/-- A raw source map (`source-map`'s `RawSourceMap`): version string,
sources, names and the encoded mappings. -/
structure SourceMap where
  version : Str
  sources : List Str
  names : List Str
  mappings : Str
deriving DecidableEq, Repr

/-- `EMPTY_SOURCE_MAP`: `{ version: '3', sources: [], names: [], mappings: '' }`. -/
def EMPTY_SOURCE_MAP : SourceMap :=
  { version := "3".toList, sources := [], names := [], mappings := [] }

/-- `EMPTY_SCRIPT`, the shim for a JavaScript `<script>`. -/
def EMPTY_SCRIPT : Str :=
  ("import \x7b defineComponent \x7d from \"vue\";\n" ++
   "export default defineComponent(\x7b\x7d);").toList

/-- `EMPTY_RENDER`, the shim for a JavaScript `<template>`. -/
def EMPTY_RENDER : Str := "export function render() \x7b\x7d".toList

/-- The `Transpiled` interface: qualification flag, extracted script and its
map, generated render function and its map. -/
structure Transpiled where
  transpiled : Bool
  script : Str
  scriptSourceMap : SourceMap
  render : Str
  renderSourceMap : SourceMap
deriving DecidableEq, Repr

/-- TypeScript types appearing in the Babel rewrite: a type query
(`typeof x`), a type reference with type arguments
(`Name<...>`, built from `tsTypeReference` + `tsTypeParameterInstantiation`),
or any other type (opaque). -/
inductive TsType where
  | typeQuery (name : Str)
  | typeRef (name : Str) (args : List TsType)
  | otherType (tag : Nat)

/-- A function parameter: a plain identifier (with an optional type given by
its annotating construct) or any other binding pattern (opaque). -/
inductive Param where
  | ident (name : Str) (tyAnn : Option TsType)
  | otherParam (tag : Nat)

/-- A declaration under an export: a (possibly anonymous) function
declaration with its parameter list, or any other declaration (opaque). -/
inductive Decl where
  | funcDecl (name : Option Str) (params : List Param)
  | otherDecl (tag : Nat)

/-- A top-level Babel statement: a named export (with an optional inner
declaration), a default-import declaration, or any other statement. -/
inductive Stmt where
  | exportNamed (decl : Option Decl)
  | importDefault (localName : Str) (source : Str)
  | otherStmt (tag : Nat)

/-- A Babel `File`/`Program`: its list of top-level statements. -/
structure Program where
  body : List Stmt

/-- `InstanceType<typeof idName>`: the annotation built in the rewrite. -/
def instanceTypeOf (idName : Str) : TsType :=
  .typeRef "InstanceType".toList [.typeQuery idName]

/-- The errors raised by `transpile`'s `assert` calls (message text elided;
`notIdentifier` is Babel's `assertIdentifier` failure). -/
inductive TErr where
  | noScript
  | noScriptMap
  | noTemplate
  | noTemplateMap
  | noRenderMap
  | notIdentifier
  | unableToAnnotate
  | noGeneratedMap
deriving DecidableEq, Repr

/-- A `<script>`/`<template>` block of the parsed SFC descriptor: content,
language (scripts only) and optional source map. -/
structure SFCBlock where
  content : Str
  lang : Option Str
  map : Option SourceMap
deriving DecidableEq, Repr

/-- The SFC descriptor produced by `@vue/compiler-sfc`'s `parse`. -/
structure SFCDescriptor where
  script : Option SFCBlock
  template : Option SFCBlock
  cssVars : List Str
deriving DecidableEq, Repr

/-- The options record passed to `compileTemplate`. -/
structure TemplateInput where
  filename : Str
  source : Str
  inMap : SourceMap
  id : Str
  scopedOpt : Bool
  slotted : Bool
  ssrCssVars : List Str
  isTS : Bool
deriving DecidableEq, Repr

/-- The result of `compileTemplate`: generated code and optional map. -/
structure TemplateResult where
  code : Str
  map : Option SourceMap
deriving DecidableEq, Repr

/-- A Babel-produced source map (`version` is a number, converted to a
string before the result is returned). -/
structure BabelMap where
  version : Nat
  sources : List Str
  names : List Str
  mappings : Str
deriving DecidableEq, Repr

/-- The result of Babel's `generate`: printed code and optional map. -/
structure GenOutput where
  code : Str
  map : Option BabelMap
deriving DecidableEq, Repr

/-- The options record passed to Babel's `generate`. -/
structure GenInput where
  sourceMaps : Bool
  filename : Str
  sourceFileName : Str
  comments : Bool
deriving DecidableEq, Repr

/-- The external collaborators consumed by `transpile`, packaged as pure
black-box functions: `@vue/compiler-sfc`'s `parse` (source, filename) and
`compileTemplate`; the sha-256 content hash truncated to 8 hex characters;
Babel's `parse` combined with the source-map position translation of
`parseAst` (code, filename, input map); and Babel's `generate`
(tree, options, original source). -/
structure TranspileEnv where
  parseSFC : Str → Str → SFCDescriptor
  hash8 : Str → Str
  compileTemplate : TemplateInput → TemplateResult
  parseRender : Str → Str → SourceMap → Program
  gen : Program → GenInput → Str → GenOutput

/-- The Babel `generate` options of `transpile` (line 169): source maps on,
filename/sourceFileName set to the document, comments preserved. -/
def genOptions (vueName : Str) : GenInput :=
  { sourceMaps := true, filename := vueName, sourceFileName := vueName,
    comments := true }

/-- The `compileTemplate` options of `transpile` (lines 108-121): the
document filename, the template content and input map, the per-document
id, scoping off, the descriptor's `cssVars`, TypeScript mode on. -/
def templInput (env : TranspileEnv) (vueName source : Str)
    (template : SFCBlock) (templateMap : SourceMap) : TemplateInput :=
  { filename := vueName, source := template.content, inMap := templateMap,
    id := env.hash8 source, scopedOpt := false, slotted := false,
    ssrCssVars := (env.parseSFC source vueName).cssVars, isTS := true }

/-- The per-document identifier `__${id}__` with `id` the sha-256 content
hash truncated to 8 hex characters (line 106 together with line 134). -/
def transpileIdName (env : TranspileEnv) (source : Str) : Str :=
  "__".toList ++ env.hash8 source ++ "__".toList

/-- Whether a statement is the target of the annotation walk: a named export
declaring a function named `render` (lines 139-146). -/
def isRenderExport : Stmt → Bool
  | .exportNamed (some (.funcDecl (some n) _)) => n = "render".toList
  | _ => false

/-- The annotation walk of `transpile` (lines 137-161): find the first named
export declaring a function named `render`; its first parameter must be a
plain identifier (else Babel's `assertIdentifier` throws); replace that
parameter's type with the given annotation and stop. Returns the rewritten
body and the `annotated` flag. -/
def annotateBody (ann : TsType) : List Stmt → Except TErr (List Stmt × Bool)
  | [] => .ok ([], false)
  | stmt :: rest =>
    match stmt with
    | .exportNamed (some (.funcDecl (some name) params)) =>
      if name = "render".toList then
        match params with
        | .ident pname _ :: ps =>
          .ok (.exportNamed (some (.funcDecl (some name)
            (.ident pname (some ann) :: ps))) :: rest, true)
        | _ => .error .notIdentifier
      else
        match annotateBody ann rest with
        | .error e => .error e
        | .ok (r, b) => .ok (stmt :: r, b)
    | _ =>
      match annotateBody ann rest with
      | .error e => .error e
      | .ok (r, b) => .ok (stmt :: r, b)

/-- `transpile` of `src/core/transpile.ts` (lines 77-190): parse the SFC,
assert script/template and their maps, shim out non-TypeScript scripts,
compile the template, parse the render code, annotate the render export's
context parameter with `InstanceType<typeof __id__>`, prepend the
default import of the script unit, re-print and return the pieces. Takes the
owning document path (`pseudoPath.vue`) and the derived script unit path
(`pseudoPath.script`) of the found vue pseudo path, plus the source. -/
def transpile (env : TranspileEnv) (vueName scriptName : Str) (source : Str) :
    Except TErr Transpiled :=
  let d := env.parseSFC source vueName
  match d.script with
  | none => .error .noScript
  | some script =>
    match script.map with
    | none => .error .noScriptMap
    | some scriptMap =>
      match d.template with
      | none => .error .noTemplate
      | some template =>
        match template.map with
        | none => .error .noTemplateMap
        | some templateMap =>
          if script.lang ≠ some "ts".toList then
            .ok { transpiled := false, script := EMPTY_SCRIPT,
                  scriptSourceMap := EMPTY_SOURCE_MAP, render := EMPTY_RENDER,
                  renderSourceMap := EMPTY_SOURCE_MAP }
          else
            let tmpl := env.compileTemplate
              (templInput env vueName source template templateMap)
            match tmpl.map with
            | none => .error .noRenderMap
            | some tmap =>
              let render := env.parseRender tmpl.code vueName tmap
              let idName := transpileIdName env source
              match annotateBody (instanceTypeOf idName) render.body with
              | .error e => .error e
              | .ok (body1, annotated) =>
                if annotated then
                  let body2 := Stmt.importDefault idName
                    (pDropRight scriptName 3) :: body1
                  let generated := env.gen { body := body2 }
                    (genOptions vueName) source
                  match generated.map with
                  | none => .error .noGeneratedMap
                  | some gmap =>
                    .ok { transpiled := true, script := script.content,
                          scriptSourceMap := scriptMap,
                          render := generated.code,
                          renderSourceMap :=
                            { version := (Nat.repr gmap.version).toList,
                              sources := gmap.sources, names := gmap.names,
                              mappings := gmap.mappings } }
                else .error .unableToAnnotate

/-- The annotation walk skips a statement that is not a render export. -/
theorem annotateBody_cons_skip (ann : TsType) (s : Stmt) (rest : List Stmt)
    (hs : isRenderExport s = false) :
    annotateBody ann (s :: rest) =
      match annotateBody ann rest with
      | .error e => .error e
      | .ok (r, b) => .ok (s :: r, b) := by
  cases s with
  | exportNamed d =>
    match d with
    | none => rfl
    | some (Decl.otherDecl t) => rfl
    | some (Decl.funcDecl none params) => rfl
    | some (Decl.funcDecl (some n) params) =>
      have hn : ¬(n = "render".toList) := by
        simpa [isRenderExport] using hs
      simp only [annotateBody]
      rw [if_neg hn]
  | importDefault a b => rfl
  | otherStmt t => rfl

/-- The annotation walk rewrites the first render export whose first
parameter is a plain identifier, leaving everything else untouched. -/
theorem annotateBody_spec (ann : TsType) (pre post : List Stmt) (pname : Str)
    (old : Option TsType) (ps : List Param)
    (hpre : ∀ s ∈ pre, isRenderExport s = false) :
    annotateBody ann (pre ++ .exportNamed (some (.funcDecl (some "render".toList)
        (.ident pname old :: ps))) :: post) =
      .ok (pre ++ .exportNamed (some (.funcDecl (some "render".toList)
        (.ident pname (some ann) :: ps))) :: post, true) := by
  induction pre with
  | nil =>
    simp [annotateBody]
  | cons s rest ih =>
    have hs : isRenderExport s = false := hpre s (List.mem_cons_self s rest)
    have hrest : ∀ x ∈ rest, isRenderExport x = false :=
      fun x hx => hpre x (List.mem_cons_of_mem s hx)
    rw [List.cons_append, annotateBody_cons_skip ann s _ hs, ih hrest]
    rfl

/-- The render unit's final syntax tree: the default import of the script
unit prepended to the body in which the render export's first parameter
carries the `InstanceType<typeof __id__>` annotation. -/
def finalRenderBody (idName scriptName pname : Str) (ps : List Param)
    (pre post : List Stmt) : List Stmt :=
  Stmt.importDefault idName (pDropRight scriptName 3) ::
    (pre ++ Stmt.exportNamed (some (Decl.funcDecl (some "render".toList)
      (Param.ident pname (some (instanceTypeOf idName)) :: ps))) :: post)

/-- C1: for a document whose typed logic section and template parse and
compile (script and template present with maps, script language `ts`,
template compiler yields a map, printer yields a map), and whose compiled
render code contains a single named render-export whose first parameter is
a plain identifier, `transpile` succeeds and the render unit is the print
of a tree whose first statement is the default import binding the
per-document identifier to the script unit, and whose render export's
first parameter is annotated `InstanceType<typeof __id__>`. -/
theorem c1_render_annotation (env : TranspileEnv)
    (vueName scriptName source : Str) (script template : SFCBlock)
    (scriptMap templateMap tmap : SourceMap) (gmap : BabelMap)
    (pre post : List Stmt) (pname : Str) (old : Option TsType)
    (ps : List Param)
    (hscript : (env.parseSFC source vueName).script = some script)
    (hsmap : script.map = some scriptMap)
    (htemplate : (env.parseSFC source vueName).template = some template)
    (htmap : template.map = some templateMap)
    (hlang : script.lang = some "ts".toList)
    (hcmap : (env.compileTemplate
      (templInput env vueName source template templateMap)).map = some tmap)
    (hbody : (env.parseRender
        (env.compileTemplate (templInput env vueName source template templateMap)).code
        vueName tmap).body =
      pre ++ Stmt.exportNamed (some (Decl.funcDecl (some "render".toList)
        (Param.ident pname old :: ps))) :: post)
    (hpre : ∀ s ∈ pre, isRenderExport s = false)
    (hgmap : (env.gen
      { body := finalRenderBody (transpileIdName env source) scriptName pname ps pre post }
      (genOptions vueName) source).map = some gmap) :
    transpile env vueName scriptName source =
      .ok { transpiled := true, script := script.content,
            scriptSourceMap := scriptMap,
            render := (env.gen
              { body := finalRenderBody (transpileIdName env source) scriptName pname ps pre post }
              (genOptions vueName) source).code,
            renderSourceMap := { version := (Nat.repr gmap.version).toList,
                                 sources := gmap.sources, names := gmap.names,
                                 mappings := gmap.mappings } } ∧
    (finalRenderBody (transpileIdName env source) scriptName pname ps pre post).head? =
      some (Stmt.importDefault (transpileIdName env source) (pDropRight scriptName 3)) ∧
    Stmt.exportNamed (some (Decl.funcDecl (some "render".toList)
      (Param.ident pname (some (instanceTypeOf (transpileIdName env source))) :: ps))) ∈
      finalRenderBody (transpileIdName env source) scriptName pname ps pre post := by
  refine ⟨?_, rfl, ?_⟩
  · simp only [transpile, hscript, hsmap, htemplate, htmap, hlang, hcmap, hbody,
      annotateBody_spec _ pre post pname old ps hpre]
    simp only [finalRenderBody] at hgmap
    simp only [hgmap]
    simp [finalRenderBody]
  · exact List.mem_cons_of_mem _
      (List.mem_append_right pre (List.mem_cons_self _ post))

/-- A concrete transpiler environment for the C1 witness: a typed script
with maps, a compiled template, and a render tree with a single
`export function render(_ctx)` statement. -/
def envC1 : TranspileEnv where
  parseSFC := fun _ _ =>
    { script := some { content := "export default 1;".toList,
                       lang := some "ts".toList,
                       map := some EMPTY_SOURCE_MAP },
      template := some { content := "<p/>".toList, lang := none,
                         map := some EMPTY_SOURCE_MAP },
      cssVars := [] }
  hash8 := fun _ => "abcd1234".toList
  compileTemplate := fun _ => { code := "code".toList, map := some EMPTY_SOURCE_MAP }
  parseRender := fun _ _ _ =>
    { body := [Stmt.exportNamed (some (Decl.funcDecl (some "render".toList)
        [Param.ident "_ctx".toList none]))] }
  gen := fun _ _ _ =>
    { code := "GEN".toList,
      map := some { version := 3, sources := [], names := [], mappings := [] } }

/-- C1 witness: on the concrete environment, `transpile` succeeds and the
annotated render export sits in the printed tree right behind the
prepended import statement. -/
theorem c1_witness :
    transpile envC1 "a.vue".toList "a.vue?script.ts".toList "x".toList =
      .ok { transpiled := true, script := "export default 1;".toList,
            scriptSourceMap := EMPTY_SOURCE_MAP, render := "GEN".toList,
            renderSourceMap := { version := (Nat.repr 3).toList, sources := [],
                                 names := [], mappings := [] } } ∧
    (finalRenderBody "__abcd1234__".toList "a.vue?script.ts".toList
        "_ctx".toList [] [] []).head? =
      some (Stmt.importDefault "__abcd1234__".toList
        (pDropRight "a.vue?script.ts".toList 3)) ∧
    Stmt.exportNamed (some (Decl.funcDecl (some "render".toList)
        [Param.ident "_ctx".toList (some (instanceTypeOf "__abcd1234__".toList))])) ∈
      finalRenderBody "__abcd1234__".toList "a.vue?script.ts".toList
        "_ctx".toList [] [] [] := by
  have h := c1_render_annotation envC1 "a.vue".toList "a.vue?script.ts".toList
    "x".toList
    { content := "export default 1;".toList, lang := some "ts".toList,
      map := some EMPTY_SOURCE_MAP }
    { content := "<p/>".toList, lang := none, map := some EMPTY_SOURCE_MAP }
    EMPTY_SOURCE_MAP EMPTY_SOURCE_MAP EMPTY_SOURCE_MAP
    { version := 3, sources := [], names := [], mappings := [] }
    [] [] "_ctx".toList none []
    rfl rfl rfl rfl rfl rfl rfl
    (fun s hs => absurd hs (List.not_mem_nil s)) rfl
  exact ⟨h.1, h.2.1, h.2.2⟩

/- ========================================================================== *
 * CLAIMS C2 AND C6                                                           *
 * ========================================================================== -/

/-- C2 (amended): when the logic section is present (with a map, and with a
template and template map) but not in the typed dialect, `transpile`
returns the opaque-shim result marked not qualified; but when the logic
section is missing, the call fails with the `No script produced` assertion
instead of returning the shim. -/
theorem c2_shim (env : TranspileEnv) (vueName scriptName source : Str) :
    (∀ (script template : SFCBlock) (scriptMap templateMap : SourceMap),
      (env.parseSFC source vueName).script = some script →
      script.map = some scriptMap →
      (env.parseSFC source vueName).template = some template →
      template.map = some templateMap →
      script.lang ≠ some "ts".toList →
      transpile env vueName scriptName source =
        .ok { transpiled := false, script := EMPTY_SCRIPT,
              scriptSourceMap := EMPTY_SOURCE_MAP, render := EMPTY_RENDER,
              renderSourceMap := EMPTY_SOURCE_MAP }) ∧
    ((env.parseSFC source vueName).script = none →
      transpile env vueName scriptName source = .error .noScript) := by
  constructor
  · intro script template scriptMap templateMap hscript hsmap htemplate htmap hlang
    simp only [transpile, hscript, hsmap, htemplate, htmap]
    rw [if_pos hlang]
  · intro hscript
    simp only [transpile, hscript]

/-- A concrete environment whose SFC parse yields no `<script>` block. -/
def envC2 : TranspileEnv where
  parseSFC := fun _ _ =>
    { script := none,
      template := some { content := "<p/>".toList, lang := none,
                         map := some EMPTY_SOURCE_MAP },
      cssVars := [] }
  hash8 := fun _ => "abcd1234".toList
  compileTemplate := fun _ => { code := "code".toList, map := some EMPTY_SOURCE_MAP }
  parseRender := fun _ _ _ => { body := [] }
  gen := fun _ _ _ => { code := "GEN".toList, map := none }

/-- A concrete environment whose `<script>` block is untyped JavaScript. -/
def envC2js : TranspileEnv where
  parseSFC := fun _ _ =>
    { script := some { content := "export default 1".toList,
                       lang := some "js".toList,
                       map := some EMPTY_SOURCE_MAP },
      template := some { content := "<p/>".toList, lang := none,
                         map := some EMPTY_SOURCE_MAP },
      cssVars := [] }
  hash8 := fun _ => "abcd1234".toList
  compileTemplate := fun _ => { code := "code".toList, map := some EMPTY_SOURCE_MAP }
  parseRender := fun _ _ _ => { body := [] }
  gen := fun _ _ _ => { code := "GEN".toList, map := none }

/-- C2 counterexample: with the logic section missing, `transpile` fails
with the `No script produced` assertion — it does not return the opaque
shim (or any result at all). -/
theorem c2_counterexample :
    (envC2.parseSFC "x".toList "a.vue".toList).script = none ∧
    transpile envC2 "a.vue".toList "a.vue?script.ts".toList "x".toList =
      .error .noScript ∧
    transpile envC2 "a.vue".toList "a.vue?script.ts".toList "x".toList ≠
      .ok { transpiled := false, script := EMPTY_SCRIPT,
            scriptSourceMap := EMPTY_SOURCE_MAP, render := EMPTY_RENDER,
            renderSourceMap := EMPTY_SOURCE_MAP } := by
  refine ⟨rfl, rfl, ?_⟩
  intro h
  rw [show transpile envC2 "a.vue".toList "a.vue?script.ts".toList "x".toList =
    .error .noScript from rfl] at h
  exact absurd h (by simp)

/-- C2 witness: the untyped-JavaScript environment gets the opaque shim. -/
theorem c2_witness :
    transpile envC2js "a.vue".toList "a.vue?script.ts".toList "x".toList =
      .ok { transpiled := false, script := EMPTY_SCRIPT,
            scriptSourceMap := EMPTY_SOURCE_MAP, render := EMPTY_RENDER,
            renderSourceMap := EMPTY_SOURCE_MAP } :=
  (c2_shim envC2js "a.vue".toList "a.vue?script.ts".toList "x".toList).1
    { content := "export default 1".toList, lang := some "js".toList,
      map := some EMPTY_SOURCE_MAP }
    { content := "<p/>".toList, lang := none, map := some EMPTY_SOURCE_MAP }
    EMPTY_SOURCE_MAP EMPTY_SOURCE_MAP rfl rfl rfl rfl (by decide)

/-- C6: the embedded `transpile` is a pure function of the environment, the
document path and the source text: repeated calls with unchanged text
produce byte-identical output, and the per-document identifier depends
only on the content hash of the source. -/
theorem c6_deterministic (env : TranspileEnv)
    (vueName scriptName source source2 : Str) (h : source = source2) :
    transpile env vueName scriptName source =
      transpile env vueName scriptName source2 ∧
    transpileIdName env source = transpileIdName env source2 := by
  subst h
  exact ⟨rfl, rfl⟩

/-- C6 witness: determinism evaluated on the concrete C1 environment. -/
theorem c6_witness :
    transpile envC1 "a.vue".toList "a.vue?script.ts".toList "x".toList =
      transpile envC1 "a.vue".toList "a.vue?script.ts".toList "x".toList ∧
    transpileIdName envC1 "x".toList = transpileIdName envC1 "x".toList :=
  c6_deterministic envC1 "a.vue".toList "a.vue?script.ts".toList
    "x".toList "x".toList rfl

/- ========================================================================== *
 * WORKER TRANSPORT SENDER (src/worker/sender.ts)                             *
 * ========================================================================== -/

/-- The observable state of a request's `Deferred` promise. -/
inductive PromiseState where
  | pending
  | resolvedP
  | rejectedP (msg : Str)
deriving DecidableEq, Repr

/-- The `Sender` state: the `_messages` correlation table (id to deferred
state), the `_alive` flag, and the `_id` counter. -/
structure SenderSt where
  messages : List (Nat × PromiseState)
  alive : Bool
  lastId : Nat
deriving DecidableEq, Repr

/-- What `send` hands back: a tracked pending promise (by id) or an
immediately rejected promise. -/
inductive SendResult where
  | tracked (id : Nat)
  | immediateReject (msg : Str)
deriving DecidableEq, Repr

/-- The state after the constructor forked the child: no messages, alive,
counter at zero. -/
def senderInit : SenderSt := { messages := [], alive := true, lastId := 0 }

/-- `Sender.send` (lines 57-67): when alive, allocate the next id, file a
pending deferred under it and send the request; when not alive, return an
immediately rejected promise (`Child process unavailable`) without touching
the table. -/
def senderSend (s : SenderSt) : SenderSt × SendResult :=
  if s.alive then
    ({ messages := s.messages ++ [(s.lastId + 1, .pending)], alive := true,
       lastId := s.lastId + 1 }, .tracked (s.lastId + 1))
  else
    (s, .immediateReject "Child process unavailable".toList)

/-- The `exit` handler (lines 40-43): log and clear `_alive`; the
correlation table is not touched. -/
def senderOnExit (s : SenderSt) : SenderSt :=
  { s with alive := false }

/-- The `error` handler (lines 35-39): log, `SIGKILL` the child and clear
`_alive`; the correlation table is not touched. -/
def senderOnError (s : SenderSt) : SenderSt :=
  { s with alive := false }

/-- The `message` handler (lines 45-53): a response whose id has a pending
entry settles that deferred (rejected `Receiver Error` on `error: true`,
resolved otherwise); an uncorrelated response is logged and dropped. -/
def senderOnMessage (s : SenderSt) (id : Nat) (error : Bool) : SenderSt :=
  if (s.messages.lookup id).isSome then
    { s with messages := s.messages.map (fun e =>
        if e.1 = id then
          (e.1, if error then PromiseState.rejectedP "Receiver Error".toList
                else PromiseState.resolvedP)
        else e) }
  else s

/-- C7 counterexample: start the sender, send one request (id 1, pending),
then let the child exit. The in-flight deferred is still pending after the
exit — no handler nor timer ever rejects it — refuting "every in-flight
request's pending promise is rejected (after at most a bounded wait)". -/
theorem c7_counterexample :
    (senderSend senderInit).2 = .tracked 1 ∧
    (senderSend senderInit).1.messages = [(1, .pending)] ∧
    (senderOnExit (senderSend senderInit).1).messages = [(1, .pending)] ∧
    (senderOnError (senderSend senderInit).1).messages = [(1, .pending)] := by
  refine ⟨rfl, rfl, rfl, rfl⟩

/-- C7 (amended): when the worker crashes or exits, the exit and error
handlers clear only the alive flag and leave every in-flight deferred in
its previous (pending) state — in-flight requests are never rejected; only
requests sent after the crash are rejected immediately with the
`Child process unavailable` error, leaving the table unchanged. -/
theorem c7_crash_behaviour :
    (∀ s : SenderSt, (senderOnExit s).messages = s.messages ∧
      (senderOnError s).messages = s.messages) ∧
    (∀ s : SenderSt, s.alive = false →
      senderSend s = (s, .immediateReject "Child process unavailable".toList)) := by
  constructor
  · intro s
    exact ⟨rfl, rfl⟩
  · intro s h
    simp only [senderSend, h]
    rfl

/-- C7 witness: the amended crash behaviour on the concrete post-exit state. -/
theorem c7_witness :
    (senderOnExit (senderSend senderInit).1).messages =
      (senderSend senderInit).1.messages ∧
    senderSend (senderOnExit (senderSend senderInit).1) =
      ((senderOnExit (senderSend senderInit).1),
        .immediateReject "Child process unavailable".toList) := by
  have h := c7_crash_behaviour
  exact ⟨(h.1 (senderSend senderInit).1).1,
    h.2 (senderOnExit (senderSend senderInit).1) rfl⟩

/- ========================================================================== *
 * DECIMAL RENDERING OF TIMESTAMPS (JavaScript number-to-string)              *
 * ========================================================================== -/

/-- Decimal digit list of a natural number, most significant first (the
structural counterpart of core's fuel-based `Nat.toDigitsCore`). -/
def natDigits (n : Nat) : List Char :=
  if _h : n < 10 then [Nat.digitChar n]
  else natDigits (n / 10) ++ [Nat.digitChar (n % 10)]
decreasing_by exact Nat.div_lt_self (by omega) (by omega)

/-- Core's `toDigitsCore` agrees with `natDigits` when the fuel suffices. -/
theorem toDigitsCore_eq_natDigits (f : Nat) :
    ∀ (n : Nat) (ds : List Char), n < f →
      Nat.toDigitsCore 10 f n ds = natDigits n ++ ds := by
  induction f with
  | zero => omega
  | succ f ih =>
    intro n ds h
    simp only [Nat.toDigitsCore]
    by_cases h0 : n / 10 = 0
    · rw [if_pos h0]
      have hlt : n < 10 := by omega
      rw [natDigits, dif_pos hlt, Nat.mod_eq_of_lt hlt]
      rfl
    · rw [if_neg h0]
      have hn10 : 10 ≤ n := by
        by_contra hc
        exact h0 (Nat.div_eq_of_lt (by omega))
      have hrec : n / 10 < f := by
        have h1 : n / 10 < n := Nat.div_lt_self (by omega) (by omega)
        omega
      rw [ih (n / 10) (Nat.digitChar (n % 10) :: ds) hrec]
      conv_rhs => rw [natDigits]
      rw [dif_neg (by omega : ¬ n < 10), List.append_assoc]
      rfl

/-- `Nat.toDigits` base 10 agrees with `natDigits`. -/
theorem toDigits_eq_natDigits (n : Nat) : Nat.toDigits 10 n = natDigits n := by
  rw [Nat.toDigits, toDigitsCore_eq_natDigits (n + 1) n [] (by omega),
    List.append_nil]

/-- The numeric value of a decimal digit character. -/
def digVal (c : Char) : Nat := c.toNat - 48

/-- `digVal` inverts `Nat.digitChar` on decimal digits. -/
theorem digVal_digitChar (m : Nat) (h : m < 10) :
    digVal (Nat.digitChar m) = m := by
  interval_cases m <;> decide

/-- Folding the decimal digits of `n` onto an accumulator computes
`a * 10 ^ digits + n`. -/
theorem foldl_natDigits (n : Nat) :
    ∀ a : Nat, (natDigits n).foldl (fun x c => x * 10 + digVal c) a =
      a * 10 ^ (natDigits n).length + n := by
  induction n using Nat.strong_induction_on with
  | _ n ih =>
    intro a
    by_cases h : n < 10
    · rw [natDigits, dif_pos h]
      simp only [List.foldl_cons, List.foldl_nil, List.length_cons,
        List.length_nil, pow_one, digVal_digitChar n h]
      ring
    · rw [natDigits, dif_neg h]
      rw [List.foldl_append]
      simp only [List.foldl_cons, List.foldl_nil]
      rw [ih (n / 10) (Nat.div_lt_self (by omega) (by omega)) a]
      rw [digVal_digitChar (n % 10) (Nat.mod_lt _ (by omega))]
      rw [List.length_append, List.length_cons, List.length_nil]
      have hmod := Nat.div_add_mod n 10
      have hexp : 10 ^ ((natDigits (n / 10)).length + (0 + 1)) =
          10 ^ (natDigits (n / 10)).length * 10 := by
        rw [pow_succ]
      rw [hexp]
      have hring : (a * 10 ^ (natDigits (n / 10)).length + n / 10) * 10 + n % 10 =
          a * (10 ^ (natDigits (n / 10)).length * 10) +
            (10 * (n / 10) + n % 10) := by
        ring
      rw [hring, hmod]

/-- `natDigits` is injective (it decodes back to its argument). -/
theorem natDigits_injective {m n : Nat} (h : natDigits m = natDigits n) :
    m = n := by
  have hm := foldl_natDigits m 0
  have hn := foldl_natDigits n 0
  rw [h] at hm
  omega

/-- `Nat.repr` is injective. -/
theorem natRepr_injective {m n : Nat} (h : Nat.repr m = Nat.repr n) :
    m = n := by
  have hd : Nat.toDigits 10 m = Nat.toDigits 10 n := by
    have := congrArg String.data h
    simpa [Nat.repr, List.asString] using this
  rw [toDigits_eq_natDigits, toDigits_eq_natDigits] at hd
  exact natDigits_injective hd

/- ========================================================================== *
 * OVERLAY HOST: SCRIPT VERSIONS (src/core/compiler.ts)                       *
 * ========================================================================== -/

/-- `getScriptVersion` of `VueLanguageServiceHost` (src/core/compiler.ts
lines 254-262): the stringified timestamp when the pseudo path is found,
otherwise `'not-found-' + Date.now()`; the clock is an explicit argument. -/
def getScriptVersion (fs : FS) (now : Nat) (file : Str) : Str :=
  match (pseudoPath fs file).tsOf with
  | some ts => (Nat.repr ts).toList
  | none => "not-found-".toList ++ (Nat.repr now).toList

/-- C10: for a path not found on disk, `getScriptVersion` returns
`'not-found-'` concatenated with the current clock value, and two calls at
different times return different version strings, so a missing file is
never reported as unchanged. -/
theorem c10_not_found_version :
    (∀ (fs : FS) (now : Nat) (file : Str),
      (pseudoPath fs file).tsOf = none →
      getScriptVersion fs now file =
        "not-found-".toList ++ (Nat.repr now).toList) ∧
    (∀ (fs : FS) (now1 now2 : Nat) (file : Str),
      (pseudoPath fs file).tsOf = none → now1 ≠ now2 →
      getScriptVersion fs now1 file ≠ getScriptVersion fs now2 file) := by
  have hshape : ∀ (fs : FS) (now : Nat) (file : Str),
      (pseudoPath fs file).tsOf = none →
      getScriptVersion fs now file =
        "not-found-".toList ++ (Nat.repr now).toList := by
    intro fs now file h
    unfold getScriptVersion
    rw [h]
  refine ⟨hshape, ?_⟩
  intro fs now1 now2 file h hne hcon
  rw [hshape fs now1 file h, hshape fs now2 file h] at hcon
  have hl := List.append_cancel_left hcon
  have hs : Nat.repr now1 = Nat.repr now2 := by
    cases hr1 : Nat.repr now1 with
    | mk d1 =>
      cases hr2 : Nat.repr now2 with
      | mk d2 =>
        rw [hr1, hr2] at hl
        simp only [String.toList] at hl
        rw [hl]
  exact hne (natRepr_injective hs)

/-- C10 witness: a missing file's versions at clock times 1 and 2 differ. -/
theorem c10_witness :
    getScriptVersion fsC3c 1 "x.ts".toList =
      "not-found-".toList ++ (Nat.repr 1).toList ∧
    getScriptVersion fsC3c 1 "x.ts".toList ≠
      getScriptVersion fsC3c 2 "x.ts".toList := by
  have h := c10_not_found_version
  exact ⟨h.1 fsC3c 1 "x.ts".toList (by decide),
    h.2 fsC3c 1 2 "x.ts".toList (by decide) (by decide)⟩

/- ========================================================================== *
 * OVERLAY HOST: SNAPSHOTS (src/core/compiler.ts, _readSnapshot)              *
 * ========================================================================== -/

/-- Replace-on-set association list for the `_rawSourceMaps` record. -/
def smSet : List (Str × SourceMap) → Str → SourceMap → List (Str × SourceMap)
  | [], p, v => [(p, v)]
  | (q, v0) :: rest, p, v =>
    if q = p then (p, v) :: rest else (q, v0) :: smSet rest p v

/-- Lookup in the `_rawSourceMaps` record. -/
def smGet : List (Str × SourceMap) → Str → Option SourceMap
  | [], _ => none
  | (q, v) :: rest, p => if q = p then some v else smGet rest p

/-- The `VUE_SHIM` index snapshot (compiler.ts lines 207-212): re-export the
script unit, import the render unit, and re-export the script unit's
default as the document's default. -/
def indexShim (renderP scriptP : Str) : Str :=
  "import \"".toList ++ pDropRight renderP 3 ++ "\";\n".toList ++
  "export * from \"".toList ++ pDropRight scriptP 3 ++ "\";\n".toList ++
  "import _default_ from \"".toList ++ pDropRight scriptP 3 ++ "\";\n".toList ++
  "export default _default_;".toList

/-- The mutable state of a `VueLanguageServiceHost`: the snapshot cache
(snapshots modeled by their text) and the raw source-map record. -/
structure HostState where
  cache : CacheMap Str
  rawMaps : List (Str × SourceMap)

/-- Outcome of `_readSnapshot`: the new host state, the resolved pseudo
path, the optional snapshot text, and — instrumentation — the number of
`transpile` invocations performed (0 or 1). -/
structure HostRead where
  state : HostState
  pseudo : PseudoPath
  snapshot : Option Str
  transpiles : Nat

/-- The compute-and-store tail of `_readSnapshot`: read the real file (the
owning document for vue paths); if it disappeared, purge (the cache layer
purges the requested path, then `_readSnapshot` purges all four derived
entries on vue paths, leaving `_rawSourceMaps` untouched); otherwise run
the snapshot callback — which, on a vue path, transpiles the document once
and force-caches all four unit snapshots under the document's timestamp and
records the two raw source maps — and finally store the callback's result
under the requested pseudo path. -/
def hostCompute (tr : PseudoPath → Str → Transpiled) (fs : FS)
    (st : HostState) (p : PseudoPath) (ts : Nat) : HostRead :=
  match fs.fileContents (if p.isVue then p.vueOf else p.pathOf) with
  | none =>
    let c1 := cacheDel st.cache p.pathOf
    match p with
    | .file path _ => ⟨⟨cacheDel c1 path, st.rawMaps⟩, p, none, 0⟩
    | .vuePath _ _ vue idx rnd scr _ =>
      ⟨⟨cacheDel (cacheDel (cacheDel (cacheDel c1 vue) idx) rnd) scr,
        st.rawMaps⟩, p, none, 0⟩
  | some contents =>
    match p with
    | .file path _ =>
      ⟨⟨cacheSet st.cache path (ts, contents), st.rawMaps⟩, p, some contents, 0⟩
    | .vuePath path ty vue idx rnd scr tso =>
      let t := tr (.vuePath path ty vue idx rnd scr tso) contents
      let c1 := cacheSet st.cache vue (ts, contents)
      let c2 := cacheSet c1 idx (ts, indexShim rnd scr)
      let c3 := cacheSet c2 rnd (ts, t.render)
      let c4 := cacheSet c3 scr (ts, t.script)
      let m1 := smSet st.rawMaps rnd t.renderSourceMap
      let m2 := smSet m1 scr t.scriptSourceMap
      let snap :=
        match ty with
        | .vue => contents
        | .index => indexShim rnd scr
        | .render => t.render
        | .script => t.script
      ⟨⟨cacheSet c4 path (ts, snap), m2⟩, p, some snap, 1⟩

/-- `_readSnapshot` of `VueLanguageServiceHost` (compiler.ts lines 199-248),
inlining the cache layer of `src/lib/cache.ts` with the host's snapshot
callback: resolve the pseudo path; purge everything if it is not found;
serve the cached snapshot if the timestamp is unchanged; otherwise read,
transpile (for vue paths) and cache. -/
def hostReadSnapshot (tr : PseudoPath → Str → Transpiled) (fs : FS)
    (st : HostState) (file : Str) : HostRead :=
  let p := pseudoPath fs file
  match p.tsOf with
  | none =>
    let c1 := cacheDel st.cache p.pathOf
    match p with
    | .file path _ => ⟨⟨cacheDel c1 path, st.rawMaps⟩, p, none, 0⟩
    | .vuePath _ _ vue idx rnd scr _ =>
      ⟨⟨cacheDel (cacheDel (cacheDel (cacheDel c1 vue) idx) rnd) scr,
        st.rawMaps⟩, p, none, 0⟩
  | some ts =>
    match cacheGet st.cache p.pathOf with
    | some (cachedTs, result) =>
      if ts = cachedTs then ⟨st, p, some result, 0⟩
      else hostCompute tr fs st p ts
    | none => hostCompute tr fs st p ts

/-- A path differs from itself extended by a nonempty suffix. -/
theorem ne_append_of_ne_nil (doc sfx : Str) (h : sfx ≠ []) :
    doc ≠ doc ++ sfx := by
  intro hcon
  have hlen := congrArg List.length hcon
  rw [List.length_append] at hlen
  have hz : sfx.length = 0 := by omega
  exact h (List.length_eq_zero.mp hz)

/-- Extending one path by different suffixes yields different paths. -/
theorem append_ne_append_right {s1 s2 : Str} (doc : Str) (h : s1 ≠ s2) :
    doc ++ s1 ≠ doc ++ s2 :=
  fun hcon => h (List.append_cancel_left hcon)

/-- A path ending in the document extension classifies as the document
itself. -/
theorem pseudoType_self {doc : Str} (hd : VUE_EXT <:+ doc) :
    pseudoType doc = some (doc, .vue) := by
  unfold pseudoType pEndsWith
  rw [decide_eq_true hd]
  rfl

/- ========================================================================== *
 * CLAIM C4                                                                   *
 * ========================================================================== -/

/-- Classification of any path whose pseudo type resolves, given no
shadowing directory (generalizes `pseudoPath_derived` to the document path
itself). -/
theorem pseudoPath_of_pseudoType {fs : FS} {p vueDoc : Str} {ty : PseudoPathType}
    (hty : pseudoType p = some (vueDoc, ty))
    (hnodir : fs.dirExists vueDoc = false) :
    pseudoPath fs p =
      .vuePath p ty vueDoc
        (vueDoc ++ VUE_PSEUDO_INDEX_SFX)
        (vueDoc ++ VUE_PSEUDO_RENDER_SFX)
        (vueDoc ++ VUE_PSEUDO_SCRIPT_SFX)
        (fs.mtime vueDoc) := by
  simp only [pseudoPath]
  rw [hty]
  simp [hnodir]

/-- The path of a document's virtual unit, per unit type: the document path
itself for the `vue` type and the three derived suffixed paths otherwise. -/
def unitPath (doc : Str) : PseudoPathType → Str
  | .vue => doc
  | .index => doc ++ VUE_PSEUDO_INDEX_SFX
  | .render => doc ++ VUE_PSEUDO_RENDER_SFX
  | .script => doc ++ VUE_PSEUDO_SCRIPT_SFX

/-- The snapshot text the host serves for each unit type (compiler.ts lines
206-229): the raw document text, the index shim, or the transpiled render
or script text. -/
def unitSnap (t : Transpiled) (contents rnd scr : Str) : PseudoPathType → Str
  | .vue => contents
  | .index => indexShim rnd scr
  | .render => t.render
  | .script => t.script

/-- Distinct unit types of one document have distinct unit paths. -/
theorem unitPath_inj (doc : Str) {ty ty' : PseudoPathType} (h : ty ≠ ty') :
    unitPath doc ty ≠ unitPath doc ty' := by
  cases ty <;> cases ty' <;>
    first
      | exact absurd rfl h
      | exact ne_append_of_ne_nil doc _ (by decide)
      | exact Ne.symm (ne_append_of_ne_nil doc _ (by decide))
      | exact append_ne_append_right doc (by decide)

/-- Classification of every unit path of a found, unshadowed document. -/
theorem pseudoPath_unit {fs : FS} {doc : Str} {ts : Nat}
    (hdoc : VUE_EXT <:+ doc) (hts : fs.mtime doc = some ts)
    (hnodir : fs.dirExists doc = false) (ty : PseudoPathType) :
    pseudoPath fs (unitPath doc ty) =
      .vuePath (unitPath doc ty) ty doc
        (doc ++ VUE_PSEUDO_INDEX_SFX) (doc ++ VUE_PSEUDO_RENDER_SFX)
        (doc ++ VUE_PSEUDO_SCRIPT_SFX) (some ts) := by
  cases ty
  · simp only [unitPath]
    rw [pseudoPath_of_pseudoType (pseudoType_self hdoc) hnodir, hts]
  · simp only [unitPath]
    rw [pseudoPath_of_pseudoType (pseudoType_append_index hdoc) hnodir, hts]
  · simp only [unitPath]
    rw [pseudoPath_of_pseudoType (pseudoType_append_render hdoc) hnodir, hts]
  · simp only [unitPath]
    rw [pseudoPath_of_pseudoType (pseudoType_append_script hdoc) hnodir, hts]

/-- Looking up any unit path in the cache produced by the host's compute
callback (four force-sets plus the final store under the requested unit's
own path) finds that unit's snapshot under the document's timestamp,
whichever unit was requested. -/
theorem hostCache_lookup (st : CacheMap Str) (doc src : Str) (ts : Nat)
    (t : Transpiled) (ty1 ty' : PseudoPathType) :
    cacheGet
      (cacheSet (cacheSet (cacheSet (cacheSet (cacheSet st
          doc (ts, src))
          (doc ++ VUE_PSEUDO_INDEX_SFX)
          (ts, indexShim (doc ++ VUE_PSEUDO_RENDER_SFX) (doc ++ VUE_PSEUDO_SCRIPT_SFX)))
          (doc ++ VUE_PSEUDO_RENDER_SFX) (ts, t.render))
          (doc ++ VUE_PSEUDO_SCRIPT_SFX) (ts, t.script))
          (unitPath doc ty1)
          (ts, unitSnap t src (doc ++ VUE_PSEUDO_RENDER_SFX)
            (doc ++ VUE_PSEUDO_SCRIPT_SFX) ty1))
      (unitPath doc ty') =
      some (ts, unitSnap t src (doc ++ VUE_PSEUDO_RENDER_SFX)
        (doc ++ VUE_PSEUDO_SCRIPT_SFX) ty') := by
  by_cases h : ty1 = ty'
  · subst h
    exact cacheGet_cacheSet _ _ _
  · rw [cacheGet_cacheSet_ne _ _ _ _ (unitPath_inj doc h)]
    cases ty' <;> simp only [unitPath, unitSnap]
    · rw [cacheGet_cacheSet_ne _ _ _ _
          (Ne.symm (ne_append_of_ne_nil doc VUE_PSEUDO_SCRIPT_SFX (by decide))),
        cacheGet_cacheSet_ne _ _ _ _
          (Ne.symm (ne_append_of_ne_nil doc VUE_PSEUDO_RENDER_SFX (by decide))),
        cacheGet_cacheSet_ne _ _ _ _
          (Ne.symm (ne_append_of_ne_nil doc VUE_PSEUDO_INDEX_SFX (by decide))),
        cacheGet_cacheSet]
    · rw [cacheGet_cacheSet_ne _ _ _ _ (append_ne_append_right doc (by decide)),
        cacheGet_cacheSet_ne _ _ _ _ (append_ne_append_right doc (by decide)),
        cacheGet_cacheSet]
    · rw [cacheGet_cacheSet_ne _ _ _ _ (append_ne_append_right doc (by decide)),
        cacheGet_cacheSet]
    · rw [cacheGet_cacheSet]

/-- C4 (amended): serving any document-derived virtual unit of a found,
unshadowed document transpiles the owning document once; the incremental
cache then holds one entry per unit path — the document path and all three
derived paths, each keyed by its own pseudo path, all carrying the
document's timestamp — so serving any other (or the same) unit afterwards
performs no further transpile and answers from the cache without changing
it; and `getScriptVersion` returns the owning document's stringified
timestamp for the document and every derived unit path. -/
theorem c4_host_memoization (tr : PseudoPath → Str → Transpiled) (fs : FS)
    (st : HostState) (doc src : Str) (ts : Nat) (ty1 : PseudoPathType)
    (hdoc : VUE_EXT <:+ doc)
    (hts : fs.mtime doc = some ts)
    (hnodir : fs.dirExists doc = false)
    (hsrc : fs.fileContents doc = some src)
    (hmiss : cacheGet st.cache (unitPath doc ty1) = none) :
    (hostReadSnapshot tr fs st (unitPath doc ty1)).transpiles = 1 ∧
    (hostReadSnapshot tr fs st (unitPath doc ty1)).snapshot =
      some (unitSnap (tr (pseudoPath fs (unitPath doc ty1)) src) src
        (doc ++ VUE_PSEUDO_RENDER_SFX) (doc ++ VUE_PSEUDO_SCRIPT_SFX) ty1) ∧
    (∀ ty' : PseudoPathType,
      cacheGet (hostReadSnapshot tr fs st (unitPath doc ty1)).state.cache
        (unitPath doc ty') =
        some (ts, unitSnap (tr (pseudoPath fs (unitPath doc ty1)) src) src
          (doc ++ VUE_PSEUDO_RENDER_SFX) (doc ++ VUE_PSEUDO_SCRIPT_SFX) ty')) ∧
    (∀ ty2 : PseudoPathType,
      (hostReadSnapshot tr fs
        (hostReadSnapshot tr fs st (unitPath doc ty1)).state
        (unitPath doc ty2)).transpiles = 0 ∧
      (hostReadSnapshot tr fs
        (hostReadSnapshot tr fs st (unitPath doc ty1)).state
        (unitPath doc ty2)).snapshot =
        some (unitSnap (tr (pseudoPath fs (unitPath doc ty1)) src) src
          (doc ++ VUE_PSEUDO_RENDER_SFX) (doc ++ VUE_PSEUDO_SCRIPT_SFX) ty2) ∧
      (hostReadSnapshot tr fs
        (hostReadSnapshot tr fs st (unitPath doc ty1)).state
        (unitPath doc ty2)).state.cache =
        (hostReadSnapshot tr fs st (unitPath doc ty1)).state.cache) ∧
    (∀ (now : Nat) (ty' : PseudoPathType),
      getScriptVersion fs now (unitPath doc ty') = (Nat.repr ts).toList) := by
  have hppU := pseudoPath_unit hdoc hts hnodir
  rw [hppU ty1]
  have hr1 : hostReadSnapshot tr fs st (unitPath doc ty1) =
      hostCompute tr fs st
        (.vuePath (unitPath doc ty1) ty1 doc
          (doc ++ VUE_PSEUDO_INDEX_SFX) (doc ++ VUE_PSEUDO_RENDER_SFX)
          (doc ++ VUE_PSEUDO_SCRIPT_SFX) (some ts)) ts := by
    simp only [hostReadSnapshot, hppU ty1, PseudoPath.tsOf, PseudoPath.pathOf, hmiss]
  have hr2 : hostCompute tr fs st
      (.vuePath (unitPath doc ty1) ty1 doc
        (doc ++ VUE_PSEUDO_INDEX_SFX) (doc ++ VUE_PSEUDO_RENDER_SFX)
        (doc ++ VUE_PSEUDO_SCRIPT_SFX) (some ts)) ts =
      ⟨⟨cacheSet (cacheSet (cacheSet (cacheSet (cacheSet st.cache
            doc (ts, src))
            (doc ++ VUE_PSEUDO_INDEX_SFX)
            (ts, indexShim (doc ++ VUE_PSEUDO_RENDER_SFX) (doc ++ VUE_PSEUDO_SCRIPT_SFX)))
            (doc ++ VUE_PSEUDO_RENDER_SFX)
            (ts, (tr (.vuePath (unitPath doc ty1) ty1 doc
              (doc ++ VUE_PSEUDO_INDEX_SFX) (doc ++ VUE_PSEUDO_RENDER_SFX)
              (doc ++ VUE_PSEUDO_SCRIPT_SFX) (some ts)) src).render))
            (doc ++ VUE_PSEUDO_SCRIPT_SFX)
            (ts, (tr (.vuePath (unitPath doc ty1) ty1 doc
              (doc ++ VUE_PSEUDO_INDEX_SFX) (doc ++ VUE_PSEUDO_RENDER_SFX)
              (doc ++ VUE_PSEUDO_SCRIPT_SFX) (some ts)) src).script))
            (unitPath doc ty1)
            (ts, unitSnap (tr (.vuePath (unitPath doc ty1) ty1 doc
                (doc ++ VUE_PSEUDO_INDEX_SFX) (doc ++ VUE_PSEUDO_RENDER_SFX)
                (doc ++ VUE_PSEUDO_SCRIPT_SFX) (some ts)) src) src
              (doc ++ VUE_PSEUDO_RENDER_SFX) (doc ++ VUE_PSEUDO_SCRIPT_SFX) ty1),
          smSet (smSet st.rawMaps (doc ++ VUE_PSEUDO_RENDER_SFX)
            (tr (.vuePath (unitPath doc ty1) ty1 doc
              (doc ++ VUE_PSEUDO_INDEX_SFX) (doc ++ VUE_PSEUDO_RENDER_SFX)
              (doc ++ VUE_PSEUDO_SCRIPT_SFX) (some ts)) src).renderSourceMap)
            (doc ++ VUE_PSEUDO_SCRIPT_SFX)
            (tr (.vuePath (unitPath doc ty1) ty1 doc
              (doc ++ VUE_PSEUDO_INDEX_SFX) (doc ++ VUE_PSEUDO_RENDER_SFX)
              (doc ++ VUE_PSEUDO_SCRIPT_SFX) (some ts)) src).scriptSourceMap⟩,
        .vuePath (unitPath doc ty1) ty1 doc
          (doc ++ VUE_PSEUDO_INDEX_SFX) (doc ++ VUE_PSEUDO_RENDER_SFX)
          (doc ++ VUE_PSEUDO_SCRIPT_SFX) (some ts),
        some (unitSnap (tr (.vuePath (unitPath doc ty1) ty1 doc
            (doc ++ VUE_PSEUDO_INDEX_SFX) (doc ++ VUE_PSEUDO_RENDER_SFX)
            (doc ++ VUE_PSEUDO_SCRIPT_SFX) (some ts)) src) src
          (doc ++ VUE_PSEUDO_RENDER_SFX) (doc ++ VUE_PSEUDO_SCRIPT_SFX) ty1),
        1⟩ := by
    cases ty1 <;>
      simp only [hostCompute, PseudoPath.isVue, PseudoPath.vueOf,
        PseudoPath.pathOf, if_true, hsrc, unitSnap, unitPath]
  rw [hr1, hr2]
  refine ⟨rfl, rfl, ?_, ?_, ?_⟩
  · intro ty'
    exact hostCache_lookup st.cache doc src ts _ ty1 ty'
  · intro ty2
    have hl := hostCache_lookup st.cache doc src ts
      (tr (.vuePath (unitPath doc ty1) ty1 doc
        (doc ++ VUE_PSEUDO_INDEX_SFX) (doc ++ VUE_PSEUDO_RENDER_SFX)
        (doc ++ VUE_PSEUDO_SCRIPT_SFX) (some ts)) src) ty1 ty2
    refine ⟨?_, ?_, ?_⟩ <;>
      simp only [hostReadSnapshot, hppU ty2, PseudoPath.tsOf, PseudoPath.pathOf,
        hl, if_true]
  · intro now ty'
    simp only [getScriptVersion, hppU ty', PseudoPath.tsOf]

/-- Concrete filesystem for the C4 counterexample and witness: only the
document `a/b.vue` exists, timestamped 7. -/
def fsC4 : FS where
  mtime := fun p => if p = "a/b.vue".toList then some 7 else none
  dirExists := fun _ => false
  fileContents := fun p => if p = "a/b.vue".toList then some "SRC".toList else none

/-- Constant transpiler used by the C4 counterexample and witness. -/
def trC4 : PseudoPath → Str → Transpiled := fun _ _ =>
  { transpiled := true, script := "S".toList,
    scriptSourceMap := EMPTY_SOURCE_MAP, render := "R".toList,
    renderSourceMap := EMPTY_SOURCE_MAP }

/-- C4 counterexample: serving the render unit of `a/b.vue` leaves four
cache entries — one per unit path, keyed by each unit's own pseudo path —
not a single entry keyed by the document's real path; in particular the
render and script units have their own entries under their own keys. -/
theorem c4_counterexample :
    (hostReadSnapshot trC4 fsC4 ⟨[], []⟩ "a/b.vue?render.ts".toList).state.cache.length = 4 ∧
    (cacheGet (hostReadSnapshot trC4 fsC4 ⟨[], []⟩
      "a/b.vue?render.ts".toList).state.cache "a/b.vue?render.ts".toList).isSome = true ∧
    (cacheGet (hostReadSnapshot trC4 fsC4 ⟨[], []⟩
      "a/b.vue?render.ts".toList).state.cache "a/b.vue?script.ts".toList).isSome = true ∧
    "a/b.vue?render.ts".toList ≠ "a/b.vue".toList ∧
    "a/b.vue?script.ts".toList ≠ "a/b.vue".toList := by
  refine ⟨?_, ?_, ?_, ?_, ?_⟩ <;> decide

/-- C4 witness: the amended memoization behaviour on the concrete document
`a/b.vue`, in two serving orders: render first then script, and index
first then script; one transpile on each first read, none on the second,
and the script unit's version is the document's stringified timestamp. -/
theorem c4_witness :
    (hostReadSnapshot trC4 fsC4 ⟨[], []⟩
      (unitPath "a/b.vue".toList .render)).transpiles = 1 ∧
    (hostReadSnapshot trC4 fsC4
      (hostReadSnapshot trC4 fsC4 ⟨[], []⟩
        (unitPath "a/b.vue".toList .render)).state
      (unitPath "a/b.vue".toList .script)).transpiles = 0 ∧
    (hostReadSnapshot trC4 fsC4 ⟨[], []⟩
      (unitPath "a/b.vue".toList .index)).transpiles = 1 ∧
    (hostReadSnapshot trC4 fsC4
      (hostReadSnapshot trC4 fsC4 ⟨[], []⟩
        (unitPath "a/b.vue".toList .index)).state
      (unitPath "a/b.vue".toList .script)).transpiles = 0 ∧
    getScriptVersion fsC4 99 (unitPath "a/b.vue".toList .script) =
      (Nat.repr 7).toList := by
  have hr := c4_host_memoization trC4 fsC4 ⟨[], []⟩ "a/b.vue".toList
    "SRC".toList 7 .render (by decide) (by decide) rfl (by decide) rfl
  have hi := c4_host_memoization trC4 fsC4 ⟨[], []⟩ "a/b.vue".toList
    "SRC".toList 7 .index (by decide) (by decide) rfl (by decide) rfl
  exact ⟨hr.1, (hr.2.2.2.1 .script).1, hi.1, (hi.2.2.2.1 .script).1,
    hr.2.2.2.2 99 .script⟩
